import Mathlib

/-!
# Verification of the GLIN generic escrow contract (src/escrow/lib.rs)

Shallow embedding of the ink! contract `generic_escrow` in
`src/escrow/lib.rs`: the storage struct, the five mutating messages and the
read-only queries are translated into executable Lean definitions. Machine
integers (`u128`, `u32`, `u16`) are modelled as `Nat` with the checked
operations (`checked_add`, `checked_mul`, `checked_div`, `checked_sub`)
carrying their explicit bound checks, matching the source's use of
`.checked_*(...).expect(...)`, whose failure is a panic (an unrecoverable
abort), not a typed error. The host (the ink! runtime) commits a message's
storage writes only when the message returns `Ok` and reverts them on a
typed error or a panic; `commitState` captures that revert semantics.
-/

abbrev AccountId := Nat
abbrev Balance := Nat
abbrev Timestamp := Nat

/-- u128 checked addition: `a.checked_add(b)`. -/
def checkedAdd128 (a b : Nat) : Option Nat :=
  if a + b < 2 ^ 128 then some (a + b) else none

/-- u128 checked multiplication: `a.checked_mul(b)`. -/
def checkedMul128 (a b : Nat) : Option Nat :=
  if a * b < 2 ^ 128 then some (a * b) else none

/-- u128 checked subtraction: `a.checked_sub(b)`, `none` when it would underflow. -/
def checkedSub (a b : Nat) : Option Nat :=
  if b ≤ a then some (a - b) else none

/-- u128 checked division: `a.checked_div(b)`, `none` only for divisor 0. -/
def checkedDiv (a b : Nat) : Option Nat :=
  if b = 0 then none else some (a / b)

/-- `MilestoneStatus` from src/escrow/lib.rs. -/
inductive MilestoneStatus where
  | Pending
  | Completed
  | Disputed
  | Resolved
  | Cancelled
  deriving DecidableEq, Repr

/-- `Milestone` from src/escrow/lib.rs. -/
structure Milestone where
  description : String
  amount : Balance
  status : MilestoneStatus
  deadline : Timestamp
  oracle_verification : Bool
  deriving DecidableEq, Repr

/-- `Agreement` from src/escrow/lib.rs. -/
structure Agreement where
  client : AccountId
  provider : AccountId
  total_amount : Balance
  deposited_amount : Balance
  created_at : Timestamp
  dispute_timeout : Timestamp
  oracle : Option AccountId
  is_active : Bool
  deriving DecidableEq, Repr

/-- `Error` from src/escrow/lib.rs. -/
inductive Error where
  | AgreementNotFound
  | MilestoneNotFound
  | NotAuthorized
  | InsufficientFunds
  | InvalidMilestoneStatus
  | AgreementNotActive
  | MilestoneAlreadyCompleted
  | DisputeTimeoutNotReached
  | TransferFailed
  deriving DecidableEq, Repr

/-- An `ink::storage::Mapping` modelled as a partial function; `Mapping.get`
is application and `Mapping.insert` is `mapInsert`. -/
def mapInsert {κ ν : Type} [DecidableEq κ] (m : κ → Option ν) (k : κ) (x : ν) :
    κ → Option ν :=
  fun q => if q = k then some x else m q

/-- The `GenericEscrow` contract storage from src/escrow/lib.rs. -/
structure GenericEscrow where
  next_agreement_id : Nat
  agreements : Nat → Option Agreement
  milestones : Nat × Nat → Option Milestone
  milestone_counts : Nat → Option Nat
  platform_fee_bps : Nat
  platform_account : AccountId

/-- The constructor `GenericEscrow::new`. -/
def GenericEscrow.new (platform_account : AccountId) (platform_fee_bps : Nat) :
    GenericEscrow where
  next_agreement_id := 0
  agreements := fun _ => none
  milestones := fun _ => none
  milestone_counts := fun _ => none
  platform_fee_bps := platform_fee_bps
  platform_account := platform_account

/-- One external value transfer issued by `self.env().transfer(to, amount)`;
`dest` is the `to` argument (`to` is reserved in Lean). -/
structure Transfer where
  dest : AccountId
  amount : Balance
  deriving DecidableEq, Repr

/-- The host environment visible to one message call: `self.env().caller()`,
`self.env().transferred_value()`, `self.env().block_timestamp()`, and the
outcome of the external transfer primitive. -/
structure Env where
  caller : AccountId
  transferred_value : Balance
  block_timestamp : Timestamp
  transferOk : AccountId → Balance → Bool

/-- Outcome of a message call: an `Ok` value together with the post state and
the list of transfers issued, a typed recoverable `Err`, or `fatal` for a
panic (`expect` on checked arithmetic / `try_from`), which the host treats as
an unconditional abort. -/
inductive Outcome (α : Type) where
  | ok : α → GenericEscrow → List Transfer → Outcome α
  | err : Error → Outcome α
  | fatal : Outcome α

/-- The storage the host actually commits after a call: writes survive only
when the message returned `Ok`; a typed error or a panic reverts every write
of the call (spec section 5 host atomicity; ink! reverts on `Err` and on
panic). -/
def commitState {α : Type} (s : GenericEscrow) : Outcome α → GenericEscrow
  | .ok _ s' _ => s'
  | .err _ => s
  | .fatal => s

/-- The platform-fee computation inlined at lines 287-295 and 382-395 of
src/escrow/lib.rs: `fee = amount.checked_mul(fee_bps).and_then(checked_div
10000)`, `net = amount.checked_sub(fee)`; `none` means the source panics. -/
def feeSplit (amount fee_bps : Nat) : Option (Nat × Nat) :=
  match (checkedMul128 amount fee_bps).bind (fun v => checkedDiv v 10000) with
  | none => none
  | some fee =>
    match checkedSub amount fee with
    | none => none
    | some net => some (fee, net)

/-- The milestone-creation loop of `create_agreement` (lines 190-207): insert
milestone `i` at key `(agreement_id, i)` with status `Pending` for each
zipped triple, indices counting up from `i0`. -/
def writeMilestones (m : Nat × Nat → Option Milestone) (agreement_id : Nat)
    (oracle_set : Bool) :
    List String → List Balance → List Timestamp → Nat →
    (Nat × Nat → Option Milestone)
  | d :: ds, a :: amts, dl :: dls, i0 =>
      writeMilestones
        (mapInsert m (agreement_id, i0)
          { description := d, amount := a, status := .Pending,
            deadline := dl, oracle_verification := oracle_set })
        agreement_id oracle_set ds amts dls (i0 + 1)
  | _, _, _, _ => m

/-- `create_agreement` (src/escrow/lib.rs lines 144-220). -/
def create_agreement (self : GenericEscrow) (env : Env)
    (provider : AccountId)
    (milestone_descriptions : List String)
    (milestone_amounts : List Balance)
    (milestone_deadlines : List Timestamp)
    (dispute_timeout : Timestamp)
    (oracle : Option AccountId) : Outcome Nat :=
  let caller := env.caller
  let transferred := env.transferred_value
  let milestone_count := milestone_descriptions.length
  if milestone_count ≠ milestone_amounts.length
      ∨ milestone_count ≠ milestone_deadlines.length
      ∨ milestone_count = 0 then
    .err .InvalidMilestoneStatus
  else
    let total_amount : Balance := milestone_amounts.sum
    if transferred < total_amount then
      .err .InsufficientFunds
    else
      match checkedAdd128 self.next_agreement_id 1 with
      | none => .fatal
      | some next =>
        let agreement_id := self.next_agreement_id
        let agreement : Agreement :=
          { client := caller, provider := provider,
            total_amount := total_amount, deposited_amount := transferred,
            created_at := env.block_timestamp,
            dispute_timeout := dispute_timeout, oracle := oracle,
            is_active := true }
        if 2 ^ 32 ≤ milestone_count then
          .fatal
        else
          let s1 : GenericEscrow :=
            { self with
              next_agreement_id := next,
              agreements := mapInsert self.agreements agreement_id agreement,
              milestones :=
                writeMilestones self.milestones agreement_id oracle.isSome
                  milestone_descriptions milestone_amounts milestone_deadlines 0,
              milestone_counts :=
                mapInsert self.milestone_counts agreement_id milestone_count }
          .ok agreement_id s1 []

/-- `complete_milestone` (src/escrow/lib.rs lines 223-253). -/
def complete_milestone (self : GenericEscrow) (env : Env)
    (agreement_id : Nat) (milestone_index : Nat) : Outcome Unit :=
  let caller := env.caller
  match self.agreements agreement_id with
  | none => .err .AgreementNotFound
  | some agreement =>
    if caller ≠ agreement.provider then
      .err .NotAuthorized
    else if ¬ agreement.is_active then
      .err .AgreementNotActive
    else
      match self.milestones (agreement_id, milestone_index) with
      | none => .err .MilestoneNotFound
      | some milestone =>
        if milestone.status ≠ .Pending then
          .err .MilestoneAlreadyCompleted
        else
          .ok ()
            { self with
              milestones :=
                mapInsert self.milestones (agreement_id, milestone_index)
                  { milestone with status := .Completed } }
            []

/-- `approve_and_release` (src/escrow/lib.rs lines 256-313). -/
def approve_and_release (self : GenericEscrow) (env : Env)
    (agreement_id : Nat) (milestone_index : Nat) : Outcome Unit :=
  let caller := env.caller
  match self.agreements agreement_id with
  | none => .err .AgreementNotFound
  | some agreement =>
    if ¬ (caller = agreement.client ∨ agreement.oracle = some caller) then
      .err .NotAuthorized
    else if ¬ agreement.is_active then
      .err .AgreementNotActive
    else
      match self.milestones (agreement_id, milestone_index) with
      | none => .err .MilestoneNotFound
      | some milestone =>
        if milestone.status ≠ .Completed then
          .err .InvalidMilestoneStatus
        else
          let s1 : GenericEscrow :=
            { self with
              milestones :=
                mapInsert self.milestones (agreement_id, milestone_index)
                  { milestone with status := .Resolved } }
          let fee_bps := self.platform_fee_bps
          match (checkedMul128 milestone.amount fee_bps).bind
              (fun v => checkedDiv v 10000) with
          | none => .fatal
          | some platform_fee =>
            match checkedSub milestone.amount platform_fee with
            | none => .fatal
            | some provider_amount =>
              if platform_fee > 0 then
                if env.transferOk self.platform_account platform_fee then
                  if env.transferOk agreement.provider provider_amount then
                    .ok () s1
                      [{ dest := self.platform_account, amount := platform_fee },
                       { dest := agreement.provider, amount := provider_amount }]
                  else .err .TransferFailed
                else .err .TransferFailed
              else
                if env.transferOk agreement.provider provider_amount then
                  .ok () s1 [{ dest := agreement.provider, amount := provider_amount }]
                else .err .TransferFailed

/-- `raise_dispute` (src/escrow/lib.rs lines 316-343). -/
def raise_dispute (self : GenericEscrow) (env : Env)
    (agreement_id : Nat) (milestone_index : Nat) : Outcome Unit :=
  let caller := env.caller
  match self.agreements agreement_id with
  | none => .err .AgreementNotFound
  | some agreement =>
    if caller ≠ agreement.client ∧ caller ≠ agreement.provider then
      .err .NotAuthorized
    else
      match self.milestones (agreement_id, milestone_index) with
      | none => .err .MilestoneNotFound
      | some milestone =>
        if milestone.status ≠ .Completed then
          .err .InvalidMilestoneStatus
        else
          .ok ()
            { self with
              milestones :=
                mapInsert self.milestones (agreement_id, milestone_index)
                  { milestone with status := .Disputed } }
            []

/-- `resolve_dispute` (src/escrow/lib.rs lines 346-412). -/
def resolve_dispute (self : GenericEscrow) (env : Env)
    (agreement_id : Nat) (milestone_index : Nat)
    (release_to_provider : Bool) : Outcome Unit :=
  let caller := env.caller
  match self.agreements agreement_id with
  | none => .err .AgreementNotFound
  | some agreement =>
    if agreement.oracle ≠ some caller ∧ caller ≠ agreement.client then
      .err .NotAuthorized
    else if agreement.oracle ≠ some caller
        ∧ env.block_timestamp < agreement.dispute_timeout then
      .err .DisputeTimeoutNotReached
    else
      match self.milestones (agreement_id, milestone_index) with
      | none => .err .MilestoneNotFound
      | some milestone =>
        if milestone.status ≠ .Disputed then
          .err .InvalidMilestoneStatus
        else
          let s1 : GenericEscrow :=
            { self with
              milestones :=
                mapInsert self.milestones (agreement_id, milestone_index)
                  { milestone with status := .Resolved } }
          let recipient :=
            if release_to_provider then agreement.provider else agreement.client
          let feeOpt : Option Nat :=
            if release_to_provider then
              (checkedMul128 milestone.amount self.platform_fee_bps).bind
                (fun v => checkedDiv v 10000)
            else some 0
          match feeOpt with
          | none => .fatal
          | some platform_fee =>
            match checkedSub milestone.amount platform_fee with
            | none => .fatal
            | some final_amount =>
              if platform_fee > 0 then
                if env.transferOk self.platform_account platform_fee then
                  if env.transferOk recipient final_amount then
                    .ok () s1
                      [{ dest := self.platform_account, amount := platform_fee },
                       { dest := recipient, amount := final_amount }]
                  else .err .TransferFailed
                else .err .TransferFailed
              else
                if env.transferOk recipient final_amount then
                  .ok () s1 [{ dest := recipient, amount := final_amount }]
                else .err .TransferFailed

/-- `get_agreement` (src/escrow/lib.rs lines 416-418). -/
def get_agreement (self : GenericEscrow) (agreement_id : Nat) :
    Option Agreement :=
  self.agreements agreement_id

/-- `get_milestone` (src/escrow/lib.rs lines 422-424). -/
def get_milestone (self : GenericEscrow) (agreement_id milestone_index : Nat) :
    Option Milestone :=
  self.milestones (agreement_id, milestone_index)

/-- `get_milestone_count` (src/escrow/lib.rs lines 428-430). -/
def get_milestone_count (self : GenericEscrow) (agreement_id : Nat) : Nat :=
  (self.milestone_counts agreement_id).getD 0
theorem mapInsert_self {κ ν : Type} [DecidableEq κ] (m : κ → Option ν)
    (k : κ) (x : ν) : mapInsert m k x k = some x := by
  simp [mapInsert]

theorem mapInsert_ne {κ ν : Type} [DecidableEq κ] (m : κ → Option ν)
    (k q : κ) (x : ν) (h : q ≠ k) : mapInsert m k x q = m q := by
  simp [mapInsert, h]

theorem commitState_err {α : Type} (s : GenericEscrow) (e : Error) :
    commitState s (.err e : Outcome α) = s := rfl

theorem commitState_of_not_ok {α : Type} (s : GenericEscrow) (o : Outcome α)
    (h : ∀ u s' ts, o ≠ .ok u s' ts) : commitState s o = s := by
  cases o with
  | ok u s' ts => exact absurd rfl (h u s' ts)
  | err e => rfl
  | fatal => rfl

theorem feePipeline_inv (a b fee : Nat)
    (h : (checkedMul128 a b).bind (fun v => checkedDiv v 10000) = some fee) :
    a * b < 2 ^ 128 ∧ fee = a * b / 10000 := by
  unfold checkedMul128 at h
  split at h
  · rename_i hlt
    unfold checkedDiv at h
    simp only [Option.some_bind] at h
    norm_num at h
    exact ⟨hlt, h.symm⟩
  · exact Option.noConfusion h

theorem feePipeline_ok (a b : Nat) (h : a * b < 2 ^ 128) :
    (checkedMul128 a b).bind (fun v => checkedDiv v 10000) =
      some (a * b / 10000) := by
  unfold checkedMul128 checkedDiv
  rw [if_pos h]
  norm_num

theorem fee_le_amount (a b : Nat) (hb : b ≤ 10000) : a * b / 10000 ≤ a := by
  calc a * b / 10000 ≤ a * 10000 / 10000 :=
        Nat.div_le_div_right (Nat.mul_le_mul_left a hb)
    _ = a := Nat.mul_div_cancel a (by norm_num)

theorem resolve_ok_inv (s : GenericEscrow) (env : Env) (aid idx : Nat)
    (rel : Bool) (u : Unit) (s' : GenericEscrow) (ts : List Transfer)
    (h : resolve_dispute s env aid idx rel = .ok u s' ts) :
    ∃ ag m fee, s.agreements aid = some ag ∧
      s.milestones (aid, idx) = some m ∧ m.status = .Disputed ∧
      fee ≤ m.amount ∧
      (rel = false → fee = 0) ∧
      (rel = true → m.amount * s.platform_fee_bps < 2 ^ 128 ∧
        fee = m.amount * s.platform_fee_bps / 10000) ∧
      s' = { s with milestones := mapInsert s.milestones (aid, idx)
                      { m with status := .Resolved } } ∧
      ((0 < fee ∧
        ts = [{ dest := s.platform_account, amount := fee },
              { dest := if rel then ag.provider else ag.client,
                amount := m.amount - fee }])
        ∨ (fee = 0 ∧
           ts = [{ dest := if rel then ag.provider else ag.client,
                   amount := m.amount - fee }])) := by
  unfold resolve_dispute at h
  simp only [] at h
  split at h
  · exact Outcome.noConfusion h
  rename_i ag hag
  split at h
  · exact Outcome.noConfusion h
  split at h
  · exact Outcome.noConfusion h
  split at h
  · exact Outcome.noConfusion h
  rename_i m hm
  split at h
  · exact Outcome.noConfusion h
  rename_i hstat
  rw [not_ne_iff] at hstat
  split at h
  · exact Outcome.noConfusion h
  rename_i fee hfee
  split at h
  · exact Outcome.noConfusion h
  rename_i final hfinal
  unfold checkedSub at hfinal
  split at hfinal
  case isFalse => exact Option.noConfusion hfinal
  rename_i hle
  injection hfinal with hfinal
  subst hfinal
  have hfee_f : rel = false → fee = 0 := by
    intro hr
    subst hr
    rw [if_neg (by simp)] at hfee
    exact (Option.some.inj hfee).symm
  have hfee_t : rel = true → m.amount * s.platform_fee_bps < 2 ^ 128 ∧
      fee = m.amount * s.platform_fee_bps / 10000 := by
    intro hr
    subst hr
    rw [if_pos rfl] at hfee
    exact feePipeline_inv _ _ _ hfee
  split at h
  · rename_i hpos
    split at h
    · split at h
      · rename_i hrel
        split at h
        · injection h with h1 h2 h3; subst h2; subst h3
          subst hrel
          exact ⟨ag, m, fee, hag, hm, hstat, hle, hfee_f, hfee_t, rfl,
            Or.inl ⟨hpos, rfl⟩⟩
        · exact Outcome.noConfusion h
      · rename_i hrel
        split at h
        · injection h with h1 h2 h3; subst h2; subst h3
          simp only [Bool.not_eq_true] at hrel
          subst hrel
          exact ⟨ag, m, fee, hag, hm, hstat, hle, hfee_f, hfee_t, rfl,
            Or.inl ⟨hpos, rfl⟩⟩
        · exact Outcome.noConfusion h
    · exact Outcome.noConfusion h
  · rename_i hpos
    split at h
    · rename_i hrel
      split at h
      · injection h with h1 h2 h3; subst h2; subst h3
        subst hrel
        exact ⟨ag, m, fee, hag, hm, hstat, hle, hfee_f, hfee_t, rfl,
          Or.inr ⟨Nat.eq_zero_of_not_pos hpos, rfl⟩⟩
      · exact Outcome.noConfusion h
    · rename_i hrel
      split at h
      · injection h with h1 h2 h3; subst h2; subst h3
        simp only [Bool.not_eq_true] at hrel
        subst hrel
        exact ⟨ag, m, fee, hag, hm, hstat, hle, hfee_f, hfee_t, rfl,
          Or.inr ⟨Nat.eq_zero_of_not_pos hpos, rfl⟩⟩
      · exact Outcome.noConfusion h

theorem approve_ok_inv (s : GenericEscrow) (env : Env) (aid idx : Nat)
    (u : Unit) (s' : GenericEscrow) (ts : List Transfer)
    (h : approve_and_release s env aid idx = .ok u s' ts) :
    ∃ ag m fee, s.agreements aid = some ag ∧
      s.milestones (aid, idx) = some m ∧ m.status = .Completed ∧
      fee ≤ m.amount ∧
      (env.caller = ag.client ∨ ag.oracle = some env.caller) ∧
      ag.is_active = true ∧
      s' = { s with milestones := mapInsert s.milestones (aid, idx)
                      { m with status := .Resolved } } ∧
      ((0 < fee ∧
        ts = [{ dest := s.platform_account, amount := fee },
              { dest := ag.provider, amount := m.amount - fee }])
        ∨ (fee = 0 ∧
           ts = [{ dest := ag.provider, amount := m.amount - fee }])) := by
  unfold approve_and_release at h
  simp only [] at h
  split at h
  · exact Outcome.noConfusion h
  rename_i ag hag
  split at h
  · exact Outcome.noConfusion h
  rename_i hauth
  rw [not_not] at hauth
  split at h
  · exact Outcome.noConfusion h
  rename_i hact
  rw [not_not] at hact
  split at h
  · exact Outcome.noConfusion h
  rename_i m hm
  split at h
  · exact Outcome.noConfusion h
  rename_i hstat
  rw [not_ne_iff] at hstat
  split at h
  · exact Outcome.noConfusion h
  rename_i fee hfee
  split at h
  · exact Outcome.noConfusion h
  rename_i final hfinal
  unfold checkedSub at hfinal
  split at hfinal
  case isFalse => exact Option.noConfusion hfinal
  rename_i hle
  injection hfinal with hfinal
  subst hfinal
  split at h
  · rename_i hpos
    split at h
    · split at h
      · injection h with h1 h2 h3; subst h2; subst h3
        exact ⟨ag, m, fee, hag, hm, hstat, hle, hauth, hact, rfl,
          Or.inl ⟨hpos, rfl⟩⟩
      · exact Outcome.noConfusion h
    · exact Outcome.noConfusion h
  · rename_i hpos
    split at h
    · injection h with h1 h2 h3; subst h2; subst h3
      exact ⟨ag, m, fee, hag, hm, hstat, hle, hauth, hact, rfl,
        Or.inr ⟨Nat.eq_zero_of_not_pos hpos, rfl⟩⟩
    · exact Outcome.noConfusion h

theorem complete_ok_inv (s : GenericEscrow) (env : Env) (aid idx : Nat)
    (u : Unit) (s' : GenericEscrow) (ts : List Transfer)
    (h : complete_milestone s env aid idx = .ok u s' ts) :
    ∃ ag m, s.agreements aid = some ag ∧
      env.caller = ag.provider ∧ ag.is_active = true ∧
      s.milestones (aid, idx) = some m ∧ m.status = .Pending ∧
      s' = { s with milestones := mapInsert s.milestones (aid, idx)
                      { m with status := .Completed } } ∧
      ts = [] := by
  unfold complete_milestone at h
  simp only [] at h
  split at h
  · exact Outcome.noConfusion h
  rename_i ag hag
  split at h
  · exact Outcome.noConfusion h
  rename_i hcall
  rw [not_ne_iff] at hcall
  split at h
  · exact Outcome.noConfusion h
  rename_i hact
  rw [not_not] at hact
  split at h
  · exact Outcome.noConfusion h
  rename_i m hm
  split at h
  · exact Outcome.noConfusion h
  rename_i hstat
  rw [not_ne_iff] at hstat
  injection h with h1 h2 h3; subst h2; subst h3
  exact ⟨ag, m, hag, hcall, hact, hm, hstat, rfl, rfl⟩

theorem raise_ok_inv (s : GenericEscrow) (env : Env) (aid idx : Nat)
    (u : Unit) (s' : GenericEscrow) (ts : List Transfer)
    (h : raise_dispute s env aid idx = .ok u s' ts) :
    ∃ ag m, s.agreements aid = some ag ∧
      (env.caller = ag.client ∨ env.caller = ag.provider) ∧
      s.milestones (aid, idx) = some m ∧ m.status = .Completed ∧
      s' = { s with milestones := mapInsert s.milestones (aid, idx)
                      { m with status := .Disputed } } ∧
      ts = [] := by
  unfold raise_dispute at h
  simp only [] at h
  split at h
  · exact Outcome.noConfusion h
  rename_i ag hag
  split at h
  · exact Outcome.noConfusion h
  rename_i hcall
  rw [not_and_or, not_ne_iff, not_ne_iff] at hcall
  split at h
  · exact Outcome.noConfusion h
  rename_i m hm
  split at h
  · exact Outcome.noConfusion h
  rename_i hstat
  rw [not_ne_iff] at hstat
  injection h with h1 h2 h3; subst h2; subst h3
  exact ⟨ag, m, hag, hcall, hm, hstat, rfl, rfl⟩

theorem create_ok_inv (s : GenericEscrow) (env : Env) (p : AccountId)
    (ds : List String) (amts : List Balance) (dls : List Timestamp)
    (dt : Timestamp) (orc : Option AccountId)
    (aid : Nat) (s' : GenericEscrow) (ts : List Transfer)
    (h : create_agreement s env p ds amts dls dt orc = .ok aid s' ts) :
    ds.length = amts.length ∧ ds.length = dls.length ∧ ds.length ≠ 0 ∧
    amts.sum ≤ env.transferred_value ∧
    s.next_agreement_id + 1 < 2 ^ 128 ∧
    ds.length < 2 ^ 32 ∧
    aid = s.next_agreement_id ∧ ts = [] ∧
    s' = { s with
      next_agreement_id := s.next_agreement_id + 1,
      agreements := mapInsert s.agreements s.next_agreement_id
        { client := env.caller, provider := p, total_amount := amts.sum,
          deposited_amount := env.transferred_value,
          created_at := env.block_timestamp,
          dispute_timeout := dt, oracle := orc, is_active := true },
      milestones := writeMilestones s.milestones s.next_agreement_id
        orc.isSome ds amts dls 0,
      milestone_counts := mapInsert s.milestone_counts
        s.next_agreement_id ds.length } := by
  unfold create_agreement at h
  simp only [] at h
  split at h
  · exact Outcome.noConfusion h
  rename_i hlen
  push_neg at hlen
  obtain ⟨hlen1, hlen2, hlen3⟩ := hlen
  split at h
  · exact Outcome.noConfusion h
  rename_i hfunds
  rw [not_lt] at hfunds
  split at h
  · exact Outcome.noConfusion h
  rename_i next hnext
  unfold checkedAdd128 at hnext
  split at hnext
  case isFalse => exact Option.noConfusion hnext
  rename_i hlt
  injection hnext with hnext
  subst hnext
  split at h
  · exact Outcome.noConfusion h
  rename_i hcnt
  rw [not_le] at hcnt
  injection h with h1 h2 h3
  subst h1; subst h2; subst h3
  exact ⟨hlen1, hlen2, hlen3, hfunds, hlt, hcnt, rfl, rfl, rfl⟩

theorem writeMilestones_ne (aid : Nat) (os : Bool)
    (ds : List String) (amts : List Balance) (dls : List Timestamp) :
    ∀ (m : Nat × Nat → Option Milestone) (i0 a k : Nat),
      (a ≠ aid ∨ k < i0) →
      writeMilestones m aid os ds amts dls i0 (a, k) = m (a, k) := by
  induction ds generalizing amts dls with
  | nil => intro m i0 a k hk; unfold writeMilestones; rfl
  | cons d ds ih =>
    intro m i0 a k hk
    cases amts with
    | nil => unfold writeMilestones; rfl
    | cons amt amts =>
      cases dls with
      | nil => unfold writeMilestones; rfl
      | cons dl dls =>
        unfold writeMilestones
        rw [ih amts dls _ (i0 + 1) a k]
        · apply mapInsert_ne
          intro hkey
          injection hkey with h1 h2
          rcases hk with hk | hk
          · exact hk h1
          · omega
        · rcases hk with hk | hk
          · exact Or.inl hk
          · exact Or.inr (by omega)

theorem writeMilestones_after (aid : Nat) (os : Bool)
    (ds : List String) (amts : List Balance) (dls : List Timestamp) :
    ∀ (m : Nat × Nat → Option Milestone) (i0 a k : Nat),
      ds.length = amts.length → ds.length = dls.length →
      i0 + ds.length ≤ k →
      writeMilestones m aid os ds amts dls i0 (a, k) = m (a, k) := by
  induction ds generalizing amts dls with
  | nil => intro m i0 a k h1 h2 hk; unfold writeMilestones; rfl
  | cons d ds ih =>
    intro m i0 a k h1 h2 hk
    cases amts with
    | nil => exact absurd h1 (by simp)
    | cons amt amts =>
      cases dls with
      | nil => exact absurd h2 (by simp)
      | cons dl dls =>
        unfold writeMilestones
        simp only [List.length_cons] at h1 h2 hk
        rw [ih amts dls _ (i0 + 1) a k (by omega) (by omega) (by omega)]
        apply mapInsert_ne
        intro hkey
        injection hkey with hk1 hk2
        omega

theorem writeMilestones_at (aid : Nat) (os : Bool)
    (ds : List String) (amts : List Balance) (dls : List Timestamp) :
    ∀ (m : Nat × Nat → Option Milestone) (i0 k : Nat),
      ds.length = amts.length → ds.length = dls.length →
      i0 ≤ k → k < i0 + ds.length →
      writeMilestones m aid os ds amts dls i0 (aid, k) =
        some { description := ds.getD (k - i0) "",
               amount := amts.getD (k - i0) 0,
               status := .Pending,
               deadline := dls.getD (k - i0) 0,
               oracle_verification := os } := by
  induction ds generalizing amts dls with
  | nil => intro m i0 k h1 h2 hk1 hk2; simp at hk2; omega
  | cons d ds ih =>
    intro m i0 k h1 h2 hk1 hk2
    cases amts with
    | nil => exact absurd h1 (by simp)
    | cons amt amts =>
      cases dls with
      | nil => exact absurd h2 (by simp)
      | cons dl dls =>
        simp only [List.length_cons] at h1 h2 hk2
        unfold writeMilestones
        rcases Nat.eq_or_lt_of_le hk1 with heq | hlt
        · subst heq
          rw [writeMilestones_ne aid os ds amts dls _ (i0 + 1) aid i0
                (Or.inr (by omega))]
          rw [Nat.sub_self]
          simp only [List.getD_cons_zero]
          exact mapInsert_self _ _ _
        · rw [ih amts dls _ (i0 + 1) k (by omega) (by omega) (by omega)
                (by omega)]
          have hsub : k - i0 = (k - (i0 + 1)) + 1 := by omega
          rw [hsub]
          simp only [List.getD_cons_succ]

/-- Sum of `f i` for `i` ranging over `0, ..., n - 1`. -/
def sumOver (n : Nat) (f : Nat → Nat) : Nat := ((List.range n).map f).sum

/-- The amount stored for milestone `(a, i)`, 0 when absent. -/
def amountAt (ms : Nat × Nat → Option Milestone) (a i : Nat) : Nat :=
  match ms (a, i) with
  | some m => m.amount
  | none => 0

/-- The amount of milestone `(a, i)` when it is not yet `Resolved`,
0 when absent or already `Resolved`. -/
def unresolvedAt (ms : Nat × Nat → Option Milestone) (a i : Nat) : Nat :=
  match ms (a, i) with
  | some m => if m.status = .Resolved then 0 else m.amount
  | none => 0

/-- Sum of the amounts of the first `n` milestones of agreement `a`. -/
def sumAmounts (ms : Nat × Nat → Option Milestone) (a n : Nat) : Nat :=
  sumOver n (amountAt ms a)

/-- Sum of the amounts of the not-yet-`Resolved` milestones among the first
`n` milestones of agreement `a`. -/
def sumUnresolved (ms : Nat × Nat → Option Milestone) (a n : Nat) : Nat :=
  sumOver n (unresolvedAt ms a)

theorem sumOver_congr (n : Nat) (f g : Nat → Nat)
    (h : ∀ i, i < n → f i = g i) : sumOver n f = sumOver n g := by
  induction n with
  | zero => rfl
  | succ n ih =>
    unfold sumOver at ih ⊢
    rw [List.range_succ, List.map_append, List.map_append,
      List.sum_append, List.sum_append]
    rw [ih (fun i hi => h i (by omega))]
    simp only [List.map_cons, List.map_nil, List.sum_cons, List.sum_nil]
    rw [h n (by omega)]

theorem sumOver_update (n : Nat) (f g : Nat → Nat) (idx : Nat)
    (hidx : idx < n) (hne : ∀ i, i < n → i ≠ idx → f i = g i) :
    sumOver n f + g idx = sumOver n g + f idx := by
  induction n with
  | zero => omega
  | succ n ih =>
    unfold sumOver at ih ⊢
    rw [List.range_succ, List.map_append, List.map_append,
      List.sum_append, List.sum_append]
    simp only [List.map_cons, List.map_nil, List.sum_cons, List.sum_nil]
    rcases Nat.eq_or_lt_of_le (Nat.lt_succ_iff.mp hidx) with heq | hlt
    · subst heq
      have hpre : sumOver idx f = sumOver idx g :=
        sumOver_congr idx f g (fun i hi => hne i (by omega) (by omega))
      unfold sumOver at hpre
      omega
    · have hih := ih hlt (fun i hi hi2 => hne i (by omega) hi2)
      have hn : f n = g n := hne n (by omega) (by omega)
      omega

theorem sumOver_getD (l : List Nat) :
    sumOver l.length (fun i => l.getD i 0) = l.sum := by
  induction l with
  | nil => rfl
  | cons a l ih =>
    unfold sumOver at ih ⊢
    simp only [List.length_cons, List.range_succ_eq_map, List.map_cons,
      List.sum_cons, List.map_map]
    simp only [List.getD_cons_zero]
    have : ((List.range l.length).map
        ((fun i => (a :: l).getD i 0) ∘ Nat.succ)).sum =
        ((List.range l.length).map (fun i => l.getD i 0)).sum := by
      apply congrArg
      apply List.map_congr_left
      intro i hi
      simp only [Function.comp]
      exact List.getD_cons_succ ..
    rw [this, ih]

/-- One external message call to the contract, with the host environment it
executes under. -/
inductive Call where
  | create (env : Env) (provider : AccountId) (ds : List String)
      (amts : List Balance) (dls : List Timestamp) (dt : Timestamp)
      (orc : Option AccountId)
  | complete (env : Env) (aid idx : Nat)
  | approve (env : Env) (aid idx : Nat)
  | dispute (env : Env) (aid idx : Nat)
  | resolve (env : Env) (aid idx : Nat) (rel : Bool)

/-- Of the transfers `ts` issued by a call on agreement `aid`, the total value
sent to that agreement's payer (client) or payee (provider): the "released
plus refunded" value of the call. Transfers to the platform account (the fee)
are counted only when the platform account coincides with one of the two
parties. -/
def payoutReleased (s : GenericEscrow) (aid : Nat) (ts : List Transfer) : Nat :=
  match s.agreements aid with
  | some ag =>
      ((ts.filter (fun t => t.dest = ag.client ∨ t.dest = ag.provider)).map
        Transfer.amount).sum
  | none => 0

/-- Ghost state for an execution trace: the contract storage the host has
committed, plus, per agreement id, the cumulative value released to the payee
or refunded to the payer over the agreement's lifetime. A failed call (typed
error or panic) commits nothing. -/
def stepCall (sp : GenericEscrow × (Nat → Nat)) (c : Call) :
    GenericEscrow × (Nat → Nat) :=
  match c with
  | .create env p ds amts dls dt orc =>
    match create_agreement sp.1 env p ds amts dls dt orc with
    | .ok _ s' _ => (s', sp.2)
    | _ => sp
  | .complete env aid idx =>
    match complete_milestone sp.1 env aid idx with
    | .ok _ s' _ => (s', sp.2)
    | _ => sp
  | .approve env aid idx =>
    match approve_and_release sp.1 env aid idx with
    | .ok _ s' ts =>
        (s', fun a => if a = aid then sp.2 a + payoutReleased sp.1 aid ts
                      else sp.2 a)
    | _ => sp
  | .dispute env aid idx =>
    match raise_dispute sp.1 env aid idx with
    | .ok _ s' _ => (s', sp.2)
    | _ => sp
  | .resolve env aid idx rel =>
    match resolve_dispute sp.1 env aid idx rel with
    | .ok _ s' ts =>
        (s', fun a => if a = aid then sp.2 a + payoutReleased sp.1 aid ts
                      else sp.2 a)
    | _ => sp

/-- Run a list of calls from a starting contract state and payout ledger. -/
def runCalls (sp : GenericEscrow × (Nat → Nat)) (cs : List Call) :
    GenericEscrow × (Nat → Nat) :=
  cs.foldl stepCall sp

/-- The custody invariant, maintained by every call: ids at or above the
counter are unused; every stored agreement has a stored milestone count `n`,
its `total_amount` is the sum of the amounts of milestones `0, ..., n - 1`,
it is fully funded (`total_amount ≤ deposited_amount`), no milestone exists
at an index `≥ n`, and the value already paid out plus the amounts of the
not-yet-`Resolved` milestones never exceeds `total_amount`. -/
structure EscrowInv (s : GenericEscrow) (payout : Nat → Nat) : Prop where
  fresh_ag : ∀ a, s.next_agreement_id ≤ a → s.agreements a = none
  fresh_cnt : ∀ a, s.next_agreement_id ≤ a → s.milestone_counts a = none
  fresh_ms : ∀ a i, s.next_agreement_id ≤ a → s.milestones (a, i) = none
  fresh_pay : ∀ a, s.next_agreement_id ≤ a → payout a = 0
  agree : ∀ a ag, s.agreements a = some ag →
    ∃ n, s.milestone_counts a = some n ∧
      ag.total_amount = sumAmounts s.milestones a n ∧
      ag.total_amount ≤ ag.deposited_amount ∧
      (∀ i, n ≤ i → s.milestones (a, i) = none) ∧
      payout a + sumUnresolved s.milestones a n ≤ ag.total_amount

theorem escrowInv_init (pa bps : Nat) :
    EscrowInv (GenericEscrow.new pa bps) (fun _ => 0) := by
  refine ⟨fun a _ => rfl, fun a _ => rfl, fun a i _ => rfl, fun a _ => rfl,
    fun a ag hag => ?_⟩
  exact absurd hag (by simp [GenericEscrow.new])

theorem keyNe (a b i j : Nat) (h : a ≠ b ∨ i ≠ j) :
    ((a, i) : Nat × Nat) ≠ (b, j) := by
  intro hk
  injection hk with h1 h2
  rcases h with h | h
  · exact h h1
  · exact h h2

theorem aid_lt_next (s : GenericEscrow) (payout : Nat → Nat) (aid : Nat)
    (ag : Agreement) (hinv : EscrowInv s payout)
    (hag : s.agreements aid = some ag) : aid < s.next_agreement_id := by
  by_contra hcon
  push_neg at hcon
  rw [hinv.fresh_ag aid hcon] at hag
  exact Option.noConfusion hag

theorem inv_preserved_status_only (s : GenericEscrow) (payout : Nat → Nat)
    (aid idx : Nat) (ag : Agreement) (m : Milestone) (st' : MilestoneStatus)
    (hinv : EscrowInv s payout)
    (hag : s.agreements aid = some ag)
    (hm : s.milestones (aid, idx) = some m)
    (hmst : m.status ≠ .Resolved) (hst' : st' ≠ .Resolved) :
    EscrowInv
      { s with milestones := mapInsert s.milestones (aid, idx)
                 { m with status := st' } } payout := by
  have haid : aid < s.next_agreement_id := aid_lt_next s payout aid ag hinv hag
  refine ⟨hinv.fresh_ag, hinv.fresh_cnt, ?_, hinv.fresh_pay, ?_⟩
  · intro a i ha
    dsimp only at ha ⊢
    rw [mapInsert_ne _ _ _ _ (keyNe a aid i idx (Or.inl (by omega)))]
    exact hinv.fresh_ms a i ha
  · intro a ag' hag'
    dsimp only at hag' ⊢
    obtain ⟨n, hcnt, htot, hdep, hbey, hpay⟩ := hinv.agree a ag' hag'
    by_cases hcase : a = aid
    · subst hcase
      have hidx : idx < n := by
        by_contra hcon
        push_neg at hcon
        rw [hbey idx hcon] at hm
        exact Option.noConfusion hm
      refine ⟨n, hcnt, ?_, hdep, ?_, ?_⟩
      · rw [htot]
        unfold sumAmounts
        apply sumOver_congr
        intro i hi
        unfold amountAt
        by_cases hieq : i = idx
        · subst hieq
          rw [hm, mapInsert_self]
        · rw [mapInsert_ne _ _ _ _ (keyNe a a i idx (Or.inr hieq))]
      · intro i hi
        rw [mapInsert_ne _ _ _ _ (keyNe a a i idx (Or.inr (by omega)))]
        exact hbey i hi
      · have hcong : sumUnresolved
            (mapInsert s.milestones (a, idx) { m with status := st' }) a n =
            sumUnresolved s.milestones a n := by
          unfold sumUnresolved
          apply sumOver_congr
          intro i hi
          unfold unresolvedAt
          by_cases hieq : i = idx
          · subst hieq
            rw [hm, mapInsert_self]
            simp only [if_neg hmst, if_neg hst']
          · rw [mapInsert_ne _ _ _ _ (keyNe a a i idx (Or.inr hieq))]
        rw [hcong]
        exact hpay
    · refine ⟨n, hcnt, ?_, hdep, ?_, ?_⟩
      · rw [htot]
        unfold sumAmounts
        apply sumOver_congr
        intro i hi
        unfold amountAt
        rw [mapInsert_ne _ _ _ _ (keyNe a aid i idx (Or.inl hcase))]
      · intro i hi
        rw [mapInsert_ne _ _ _ _ (keyNe a aid i idx (Or.inl hcase))]
        exact hbey i hi
      · have hcong : sumUnresolved
            (mapInsert s.milestones (aid, idx) { m with status := st' }) a n =
            sumUnresolved s.milestones a n := by
          unfold sumUnresolved
          apply sumOver_congr
          intro i hi
          unfold unresolvedAt
          rw [mapInsert_ne _ _ _ _ (keyNe a aid i idx (Or.inl hcase))]
        rw [hcong]
        exact hpay

theorem inv_preserved_payout (s : GenericEscrow) (payout : Nat → Nat)
    (aid idx : Nat) (ag : Agreement) (m : Milestone) (p : Nat)
    (hinv : EscrowInv s payout)
    (hag : s.agreements aid = some ag)
    (hm : s.milestones (aid, idx) = some m)
    (hmst : m.status ≠ .Resolved)
    (hp : p ≤ m.amount) :
    EscrowInv
      { s with milestones := mapInsert s.milestones (aid, idx)
                 { m with status := .Resolved } }
      (fun a => if a = aid then payout a + p else payout a) := by
  have haid : aid < s.next_agreement_id := aid_lt_next s payout aid ag hinv hag
  refine ⟨hinv.fresh_ag, hinv.fresh_cnt, ?_, ?_, ?_⟩
  · intro a i ha
    dsimp only at ha ⊢
    rw [mapInsert_ne _ _ _ _ (keyNe a aid i idx (Or.inl (by omega)))]
    exact hinv.fresh_ms a i ha
  · intro a ha
    dsimp only at ha ⊢
    rw [if_neg (by omega)]
    exact hinv.fresh_pay a ha
  · intro a ag' hag'
    dsimp only at hag' ⊢
    obtain ⟨n, hcnt, htot, hdep, hbey, hpay⟩ := hinv.agree a ag' hag'
    by_cases hcase : a = aid
    · subst hcase
      have hidx : idx < n := by
        by_contra hcon
        push_neg at hcon
        rw [hbey idx hcon] at hm
        exact Option.noConfusion hm
      refine ⟨n, hcnt, ?_, hdep, ?_, ?_⟩
      · rw [htot]
        unfold sumAmounts
        apply sumOver_congr
        intro i hi
        unfold amountAt
        by_cases hieq : i = idx
        · subst hieq
          rw [hm, mapInsert_self]
        · rw [mapInsert_ne _ _ _ _ (keyNe a a i idx (Or.inr hieq))]
      · intro i hi
        rw [mapInsert_ne _ _ _ _ (keyNe a a i idx (Or.inr (by omega)))]
        exact hbey i hi
      · rw [if_pos rfl]
        have hupd := sumOver_update n (unresolvedAt s.milestones a)
          (unresolvedAt
            (mapInsert s.milestones (a, idx) { m with status := .Resolved }) a)
          idx hidx ?hne
        case hne =>
          intro i hi hi2
          unfold unresolvedAt
          rw [mapInsert_ne _ _ _ _ (keyNe a a i idx (Or.inr hi2))]
        have hold : unresolvedAt s.milestones a idx = m.amount := by
          simp only [unresolvedAt, hm]
          rw [if_neg hmst]
        have hnew : unresolvedAt
            (mapInsert s.milestones (a, idx) { m with status := .Resolved })
            a idx = 0 := by
          simp only [unresolvedAt, mapInsert_self]
          simp
        unfold sumUnresolved at hpay ⊢
        rw [hold, hnew] at hupd
        omega
    · refine ⟨n, hcnt, ?_, hdep, ?_, ?_⟩
      · rw [htot]
        unfold sumAmounts
        apply sumOver_congr
        intro i hi
        unfold amountAt
        rw [mapInsert_ne _ _ _ _ (keyNe a aid i idx (Or.inl hcase))]
      · intro i hi
        rw [mapInsert_ne _ _ _ _ (keyNe a aid i idx (Or.inl hcase))]
        exact hbey i hi
      · rw [if_neg hcase]
        have hcong : sumUnresolved
            (mapInsert s.milestones (aid, idx) { m with status := .Resolved })
            a n = sumUnresolved s.milestones a n := by
          unfold sumUnresolved
          apply sumOver_congr
          intro i hi
          unfold unresolvedAt
          rw [mapInsert_ne _ _ _ _ (keyNe a aid i idx (Or.inl hcase))]
        rw [hcong]
        exact hpay

theorem inv_preserved_create (s : GenericEscrow) (payout : Nat → Nat)
    (env : Env) (p : AccountId) (ds : List String) (amts : List Balance)
    (dls : List Timestamp) (dt : Timestamp) (orc : Option AccountId)
    (aid : Nat) (s' : GenericEscrow) (ts : List Transfer)
    (hinv : EscrowInv s payout)
    (h : create_agreement s env p ds amts dls dt orc = .ok aid s' ts) :
    EscrowInv s' payout := by
  obtain ⟨hlen1, hlen2, hlen3, hfunds, hlt, hc32, haid, hts, hs'⟩ :=
    create_ok_inv s env p ds amts dls dt orc aid s' ts h
  subst hs'
  refine ⟨?_, ?_, ?_, ?_, ?_⟩
  · intro a ha
    dsimp only at ha ⊢
    rw [mapInsert_ne _ _ _ _ (by omega)]
    exact hinv.fresh_ag a (by omega)
  · intro a ha
    dsimp only at ha ⊢
    rw [mapInsert_ne _ _ _ _ (by omega)]
    exact hinv.fresh_cnt a (by omega)
  · intro a i ha
    dsimp only at ha ⊢
    rw [writeMilestones_ne s.next_agreement_id orc.isSome ds amts dls
      s.milestones 0 a i (Or.inl (by omega))]
    exact hinv.fresh_ms a i (by omega)
  · intro a ha
    dsimp only at ha
    exact hinv.fresh_pay a (by omega)
  · intro a ag' hag'
    dsimp only at hag' ⊢
    by_cases hcase : a = s.next_agreement_id
    · subst hcase
      rw [mapInsert_self] at hag'
      have hagrec := Option.some.inj hag'
      have hcongA : sumOver ds.length
          (amountAt (writeMilestones s.milestones s.next_agreement_id
            orc.isSome ds amts dls 0) s.next_agreement_id) =
          sumOver ds.length (fun i => amts.getD i 0) := by
        apply sumOver_congr
        intro i hi
        unfold amountAt
        rw [writeMilestones_at s.next_agreement_id orc.isSome ds amts dls
          s.milestones 0 i hlen1 hlen2 (Nat.zero_le i) (by omega)]
        simp
      have hcongU : sumOver ds.length
          (unresolvedAt (writeMilestones s.milestones s.next_agreement_id
            orc.isSome ds amts dls 0) s.next_agreement_id) =
          sumOver ds.length (fun i => amts.getD i 0) := by
        apply sumOver_congr
        intro i hi
        unfold unresolvedAt
        rw [writeMilestones_at s.next_agreement_id orc.isSome ds amts dls
          s.milestones 0 i hlen1 hlen2 (Nat.zero_le i) (by omega)]
        simp
      refine ⟨ds.length, mapInsert_self _ _ _, ?_, ?_, ?_, ?_⟩
      · rw [← hagrec]
        dsimp only
        unfold sumAmounts
        rw [hcongA, hlen1, sumOver_getD]
      · rw [← hagrec]
        dsimp only
        exact hfunds
      · intro i hi
        rw [writeMilestones_after s.next_agreement_id orc.isSome ds amts dls
          s.milestones 0 s.next_agreement_id i hlen1 hlen2 (by omega)]
        exact hinv.fresh_ms s.next_agreement_id i (le_refl _)
      · rw [← hagrec]
        dsimp only
        unfold sumUnresolved
        rw [hcongU, hlen1, sumOver_getD,
          hinv.fresh_pay s.next_agreement_id (le_refl _)]
        omega
    · rw [mapInsert_ne _ _ _ _ hcase] at hag'
      obtain ⟨n, hcnt, htot, hdep, hbey, hpay⟩ := hinv.agree a ag' hag'
      have hms_eq : ∀ i, writeMilestones s.milestones s.next_agreement_id
          orc.isSome ds amts dls 0 (a, i) = s.milestones (a, i) := by
        intro i
        exact writeMilestones_ne s.next_agreement_id orc.isSome ds amts dls
          s.milestones 0 a i (Or.inl hcase)
      refine ⟨n, ?_, ?_, hdep, ?_, ?_⟩
      · rw [mapInsert_ne _ _ _ _ hcase]
        exact hcnt
      · rw [htot]
        unfold sumAmounts
        apply sumOver_congr
        intro i hi
        unfold amountAt
        rw [hms_eq i]
      · intro i hi
        rw [hms_eq i]
        exact hbey i hi
      · have hcong : sumUnresolved
            (writeMilestones s.milestones s.next_agreement_id orc.isSome
              ds amts dls 0) a n = sumUnresolved s.milestones a n := by
          unfold sumUnresolved
          apply sumOver_congr
          intro i hi
          unfold unresolvedAt
          rw [hms_eq i]
        rw [hcong]
        exact hpay

theorem filtered_amount_sum_le (p : Transfer → Bool) (ts : List Transfer) :
    ((ts.filter p).map Transfer.amount).sum ≤ (ts.map Transfer.amount).sum := by
  induction ts with
  | nil => simp
  | cons t ts ih =>
    simp only [List.filter_cons]
    split
    · simp only [List.map_cons, List.sum_cons]
      exact Nat.add_le_add_left ih _
    · simp only [List.map_cons, List.sum_cons]
      exact le_trans ih (Nat.le_add_left _ _)

theorem payoutReleased_le (s : GenericEscrow) (aid : Nat) (ts : List Transfer) :
    payoutReleased s aid ts ≤ (ts.map Transfer.amount).sum := by
  unfold payoutReleased
  split
  · exact filtered_amount_sum_le _ _
  · exact Nat.zero_le _

theorem stepCall_inv (sp : GenericEscrow × (Nat → Nat)) (c : Call)
    (hinv : EscrowInv sp.1 sp.2) :
    EscrowInv (stepCall sp c).1 (stepCall sp c).2 := by
  cases c with
  | create env p ds amts dls dt orc =>
    simp only [stepCall]
    cases hout : create_agreement sp.1 env p ds amts dls dt orc with
    | ok aid s' ts =>
      exact inv_preserved_create sp.1 sp.2 env p ds amts dls dt orc aid s' ts
        hinv hout
    | err e => exact hinv
    | fatal => exact hinv
  | complete env aid idx =>
    simp only [stepCall]
    cases hout : complete_milestone sp.1 env aid idx with
    | ok u s' ts =>
      obtain ⟨ag, m, hag, hcall, hact, hm, hstat, hs', hts⟩ :=
        complete_ok_inv sp.1 env aid idx u s' ts hout
      subst hs'
      exact inv_preserved_status_only sp.1 sp.2 aid idx ag m .Completed hinv
        hag hm (by rw [hstat]; exact fun hcon => MilestoneStatus.noConfusion hcon)
        (fun hcon => MilestoneStatus.noConfusion hcon)
    | err e => exact hinv
    | fatal => exact hinv
  | dispute env aid idx =>
    simp only [stepCall]
    cases hout : raise_dispute sp.1 env aid idx with
    | ok u s' ts =>
      obtain ⟨ag, m, hag, hcall, hm, hstat, hs', hts⟩ :=
        raise_ok_inv sp.1 env aid idx u s' ts hout
      subst hs'
      exact inv_preserved_status_only sp.1 sp.2 aid idx ag m .Disputed hinv
        hag hm (by rw [hstat]; exact fun hcon => MilestoneStatus.noConfusion hcon)
        (fun hcon => MilestoneStatus.noConfusion hcon)
    | err e => exact hinv
    | fatal => exact hinv
  | approve env aid idx =>
    simp only [stepCall]
    cases hout : approve_and_release sp.1 env aid idx with
    | ok u s' ts =>
      obtain ⟨ag, m, fee, hag, hm, hstat, hle, hauth, hact, hs', hts_or⟩ :=
        approve_ok_inv sp.1 env aid idx u s' ts hout
      subst hs'
      have hsum : (ts.map Transfer.amount).sum = m.amount := by
        rcases hts_or with ⟨hpos, hts⟩ | ⟨hfee0, hts⟩
        · subst hts
          simp only [List.map_cons, List.map_nil, List.sum_cons, List.sum_nil,
            Nat.add_zero]
          exact Nat.add_sub_cancel' hle
        · subst hts
          subst hfee0
          simp
      have hple : payoutReleased sp.1 aid ts ≤ m.amount := by
        rw [← hsum]
        exact payoutReleased_le sp.1 aid ts
      exact inv_preserved_payout sp.1 sp.2 aid idx ag m
        (payoutReleased sp.1 aid ts) hinv hag hm
        (by rw [hstat]; exact fun hcon => MilestoneStatus.noConfusion hcon) hple
    | err e => exact hinv
    | fatal => exact hinv
  | resolve env aid idx rel =>
    simp only [stepCall]
    cases hout : resolve_dispute sp.1 env aid idx rel with
    | ok u s' ts =>
      obtain ⟨ag, m, fee, hag, hm, hstat, hle, hff, hft, hs', hts_or⟩ :=
        resolve_ok_inv sp.1 env aid idx rel u s' ts hout
      subst hs'
      have hsum : (ts.map Transfer.amount).sum = m.amount := by
        rcases hts_or with ⟨hpos, hts⟩ | ⟨hfee0, hts⟩
        · subst hts
          simp only [List.map_cons, List.map_nil, List.sum_cons, List.sum_nil,
            Nat.add_zero]
          exact Nat.add_sub_cancel' hle
        · subst hts
          subst hfee0
          simp
      have hple : payoutReleased sp.1 aid ts ≤ m.amount := by
        rw [← hsum]
        exact payoutReleased_le sp.1 aid ts
      exact inv_preserved_payout sp.1 sp.2 aid idx ag m
        (payoutReleased sp.1 aid ts) hinv hag hm
        (by rw [hstat]; exact fun hcon => MilestoneStatus.noConfusion hcon) hple
    | err e => exact hinv
    | fatal => exact hinv

theorem runCalls_inv (cs : List Call) :
    ∀ sp : GenericEscrow × (Nat → Nat), EscrowInv sp.1 sp.2 →
      EscrowInv (runCalls sp cs).1 (runCalls sp cs).2 := by
  induction cs with
  | nil => intro sp h; exact h
  | cons c cs ih =>
    intro sp h
    unfold runCalls
    rw [List.foldl_cons]
    exact ih (stepCall sp c) (stepCall_inv sp c h)

/-- The spec's invalid-state error class (section 7): an action attempted
from a milestone status not listed for it. `complete_milestone` reports it
as `MilestoneAlreadyCompleted`, the other three actions as
`InvalidMilestoneStatus`. -/
def Error.isInvalidStatusError : Error → Bool
  | .InvalidMilestoneStatus => true
  | .MilestoneAlreadyCompleted => true
  | _ => false

/-- A concrete agreement: client 1, provider 2, arbiter 4, 500 escrowed. -/
def agFix : Agreement :=
  { client := 1, provider := 2, total_amount := 500, deposited_amount := 500,
    created_at := 0, dispute_timeout := 100, oracle := some 4,
    is_active := true }

/-- A concrete one-milestone record with a chosen status. -/
def msFix (st : MilestoneStatus) : Milestone :=
  { description := "m0", amount := 500, status := st, deadline := 10,
    oracle_verification := true }

/-- A concrete contract state holding `agFix` as agreement 0 with the single
milestone `msFix st`; platform account 3, fee 200 bps. -/
def stFix (st : MilestoneStatus) : GenericEscrow :=
  { next_agreement_id := 1,
    agreements := mapInsert (fun _ => none) 0 agFix,
    milestones := mapInsert (fun _ => none) (0, 0) (msFix st),
    milestone_counts := mapInsert (fun _ => none) 0 1,
    platform_fee_bps := 200,
    platform_account := 3 }

/-- A host environment whose transfer primitive always succeeds. -/
def envFix (c t now : Nat) : Env :=
  { caller := c, transferred_value := t, block_timestamp := now,
    transferOk := fun _ _ => true }

/-- A host environment whose transfer primitive always fails. -/
def envFixNoTransfer (c t now : Nat) : Env :=
  { caller := c, transferred_value := t, block_timestamp := now,
    transferOk := fun _ _ => false }

/-- C5: the fee split used by `approve_and_release` and `resolve_dispute`
computes `fee = floor(amount * feeBasisPoints / 10000)` and
`net = amount - fee` in truncating integer arithmetic; in particular
`split(500, 200) = (10, 490)`, `split(500, 0) = (0, 500)` and
`split(333, 333) = (11, 322)`. -/
theorem C5_fee_split_floor :
    (∀ a b fee net, feeSplit a b = some (fee, net) →
      fee = a * b / 10000 ∧ net = a - fee) ∧
    feeSplit 500 200 = some (10, 490) ∧
    feeSplit 500 0 = some (0, 500) ∧
    feeSplit 333 333 = some (11, 322) := by
  refine ⟨?_, by decide, by decide, by decide⟩
  intro a b fee net h
  unfold feeSplit at h
  split at h
  · exact Option.noConfusion h
  rename_i fee0 hfee0
  split at h
  · exact Option.noConfusion h
  rename_i net0 hnet0
  injection h with h
  injection h with hf hn
  subst hf
  subst hn
  obtain ⟨hmul, hfeq⟩ := feePipeline_inv a b fee0 hfee0
  unfold checkedSub at hnet0
  split at hnet0
  · injection hnet0 with hnet0
    exact ⟨hfeq, hnet0.symm⟩
  · exact Option.noConfusion hnet0

/-- C5 witness: the fee split at the concrete input (500, 200). -/
theorem C5_fee_split_floor_witness :
    (10 : Nat) = 500 * 200 / 10000 ∧ (490 : Nat) = 500 - 10 :=
  C5_fee_split_floor.1 500 200 10 490 (by decide)

/-- C6: a successful `resolve_dispute` with `release_to_provider = false`
issues exactly one transfer, of the full milestone amount, to the
agreement's client, with no platform fee. -/
theorem C6_refund_full_no_fee (s : GenericEscrow) (env : Env) (aid idx : Nat)
    (u : Unit) (s' : GenericEscrow) (ts : List Transfer)
    (h : resolve_dispute s env aid idx false = .ok u s' ts) :
    ∃ ag m, s.agreements aid = some ag ∧ s.milestones (aid, idx) = some m ∧
      m.status = .Disputed ∧
      ts = [{ dest := ag.client, amount := m.amount }] := by
  obtain ⟨ag, m, fee, hag, hm, hstat, hle, hff, hft, hs', hts_or⟩ :=
    resolve_ok_inv s env aid idx false u s' ts h
  have hfee0 : fee = 0 := hff rfl
  subst hfee0
  refine ⟨ag, m, hag, hm, hstat, ?_⟩
  rcases hts_or with ⟨hpos, hts⟩ | ⟨_, hts⟩
  · exact absurd hpos (lt_irrefl 0)
  · rw [hts]
    norm_num

/-- C6 witness: the arbiter refunds the disputed fixture milestone to the
client; the single transfer is 500 to account 1 (the client). -/
theorem C6_refund_full_no_fee_witness :
    ∃ ag m, (stFix .Disputed).agreements 0 = some ag ∧
      (stFix .Disputed).milestones (0, 0) = some m ∧
      m.status = .Disputed ∧
      [({ dest := 1, amount := 500 } : Transfer)] =
        [{ dest := ag.client, amount := m.amount }] :=
  C6_refund_full_no_fee (stFix .Disputed) (envFix 4 0 0) 0 0 ()
    { stFix .Disputed with
      milestones := mapInsert (stFix .Disputed).milestones (0, 0)
        { msFix .Disputed with status := .Resolved } }
    [{ dest := 1, amount := 500 }] (by rfl)

theorem resolve_success_of_auth (s : GenericEscrow) (env : Env) (aid idx : Nat)
    (rel : Bool) (ag : Agreement) (m : Milestone)
    (hag : s.agreements aid = some ag)
    (hauth : ¬(ag.oracle ≠ some env.caller ∧ env.caller ≠ ag.client))
    (htime : ¬(ag.oracle ≠ some env.caller ∧
      env.block_timestamp < ag.dispute_timeout))
    (hm : s.milestones (aid, idx) = some m)
    (hstat : m.status = .Disputed)
    (hmul : m.amount * s.platform_fee_bps < 2 ^ 128)
    (hbps : s.platform_fee_bps ≤ 10000)
    (hT : ∀ r n, env.transferOk r n = true) :
    ∃ s' ts, resolve_dispute s env aid idx rel = .ok () s' ts := by
  have hpipe : (if rel = true then
      (checkedMul128 m.amount s.platform_fee_bps).bind
        (fun v => checkedDiv v 10000)
      else some 0) =
      some (if rel = true then m.amount * s.platform_fee_bps / 10000
            else 0) := by
    cases rel
    · simp
    · simp [feePipeline_ok m.amount s.platform_fee_bps hmul]
  have hfee_le : (if rel = true then m.amount * s.platform_fee_bps / 10000
      else 0) ≤ m.amount := by
    cases rel
    · simp
    · simp [fee_le_amount m.amount s.platform_fee_bps hbps]
  have hsub : checkedSub m.amount
      (if rel = true then m.amount * s.platform_fee_bps / 10000 else 0) =
      some (m.amount -
        (if rel = true then m.amount * s.platform_fee_bps / 10000 else 0)) := by
    unfold checkedSub
    rw [if_pos hfee_le]
  by_cases hfee : (if rel = true then m.amount * s.platform_fee_bps / 10000
      else 0) > 0
  · exact ⟨_, _, by
      unfold resolve_dispute
      simp only [hag]
      rw [if_neg hauth, if_neg htime]
      simp only [hm]
      rw [if_neg (fun hne => hne hstat), hpipe]
      simp only []
      rw [hsub]
      simp only []
      rw [if_pos hfee, hT, if_pos rfl, hT, if_pos rfl]⟩
  · exact ⟨_, _, by
      unfold resolve_dispute
      simp only [hag]
      rw [if_neg hauth, if_neg htime]
      simp only [hm]
      rw [if_neg (fun hne => hne hstat), hpipe]
      simp only []
      rw [hsub]
      simp only []
      rw [if_neg hfee, hT, if_pos rfl]⟩

/-- C4: `resolve_dispute` authorization. The designated arbiter (oracle) may
resolve a disputed milestone at any time; any other caller must be the
client, and only succeeds once the current time is at or past the
agreement's dispute timeout — before that instant the client gets
`DisputeTimeoutNotReached`, and every caller that is neither arbiter nor
client gets `NotAuthorized`. -/
theorem C4_resolve_dispute_auth (s : GenericEscrow) (env : Env)
    (aid idx : Nat) (rel : Bool) (ag : Agreement) (m : Milestone)
    (hag : s.agreements aid = some ag) :
    (ag.oracle = some env.caller →
      s.milestones (aid, idx) = some m → m.status = .Disputed →
      m.amount * s.platform_fee_bps < 2 ^ 128 →
      s.platform_fee_bps ≤ 10000 →
      (∀ r n, env.transferOk r n = true) →
      ∃ s' ts, resolve_dispute s env aid idx rel = .ok () s' ts) ∧
    (ag.oracle ≠ some env.caller → env.caller = ag.client →
      ag.dispute_timeout ≤ env.block_timestamp →
      s.milestones (aid, idx) = some m → m.status = .Disputed →
      m.amount * s.platform_fee_bps < 2 ^ 128 →
      s.platform_fee_bps ≤ 10000 →
      (∀ r n, env.transferOk r n = true) →
      ∃ s' ts, resolve_dispute s env aid idx rel = .ok () s' ts) ∧
    (ag.oracle ≠ some env.caller → env.caller = ag.client →
      env.block_timestamp < ag.dispute_timeout →
      resolve_dispute s env aid idx rel = .err .DisputeTimeoutNotReached) ∧
    (ag.oracle ≠ some env.caller → env.caller ≠ ag.client →
      resolve_dispute s env aid idx rel = .err .NotAuthorized) := by
  refine ⟨?_, ?_, ?_, ?_⟩
  · intro horc hm hstat hmul hbps hT
    exact resolve_success_of_auth s env aid idx rel ag m hag
      (fun hcon => hcon.1 horc) (fun hcon => hcon.1 horc) hm hstat hmul hbps hT
  · intro horc hcl htime hm hstat hmul hbps hT
    exact resolve_success_of_auth s env aid idx rel ag m hag
      (fun hcon => hcon.2 hcl) (fun hcon => absurd hcon.2 (not_lt.mpr htime))
      hm hstat hmul hbps hT
  · intro horc hcl hlt
    unfold resolve_dispute
    simp only [hag]
    rw [if_neg (fun hcon => hcon.2 hcl), if_pos ⟨horc, hlt⟩]
  · intro horc hne
    unfold resolve_dispute
    simp only [hag]
    rw [if_pos ⟨horc, hne⟩]

/-- C4 witness: on the disputed fixture milestone, the arbiter (account 4)
resolves before the timeout, the client (account 1) resolves at the timeout,
the client before the timeout gets the timing error, and a stranger
(account 9) gets the authorization error. -/
theorem C4_resolve_dispute_auth_witness :
    (∃ s' ts, resolve_dispute (stFix .Disputed) (envFix 4 0 0) 0 0 true =
      .ok () s' ts) ∧
    (∃ s' ts, resolve_dispute (stFix .Disputed) (envFix 1 0 100) 0 0 false =
      .ok () s' ts) ∧
    resolve_dispute (stFix .Disputed) (envFix 1 0 5) 0 0 false =
      .err .DisputeTimeoutNotReached ∧
    resolve_dispute (stFix .Disputed) (envFix 9 0 0) 0 0 false =
      .err .NotAuthorized := by
  refine ⟨?_, ?_, ?_, ?_⟩
  · exact (C4_resolve_dispute_auth (stFix .Disputed) (envFix 4 0 0) 0 0 true
      agFix (msFix .Disputed) (by rfl)).1 (by rfl) (by rfl) (by rfl)
      (by decide) (by decide) (fun r n => rfl)
  · exact (C4_resolve_dispute_auth (stFix .Disputed) (envFix 1 0 100) 0 0
      false agFix (msFix .Disputed) (by rfl)).2.1 (by decide) (by rfl)
      (by decide) (by rfl) (by rfl) (by decide) (by decide) (fun r n => rfl)
  · exact (C4_resolve_dispute_auth (stFix .Disputed) (envFix 1 0 5) 0 0
      false agFix (msFix .Disputed) (by rfl)).2.2.1 (by decide) (by rfl)
      (by decide)
  · exact (C4_resolve_dispute_auth (stFix .Disputed) (envFix 9 0 0) 0 0
      false agFix (msFix .Disputed) (by rfl)).2.2.2 (by decide) (by decide)

/-- The state produced by a successful `create_agreement` on a fresh
contract (platform 3, 200 bps) with caller 1, provider 2, one milestone of
amount 5, deadline 7, deposit 5, timeout 100, no oracle. -/
def createdFix : GenericEscrow :=
  { GenericEscrow.new 3 200 with
    next_agreement_id := 1,
    agreements := mapInsert (GenericEscrow.new 3 200).agreements 0
      { client := 1, provider := 2, total_amount := List.sum [5],
        deposited_amount := 5, created_at := 0, dispute_timeout := 100,
        oracle := none, is_active := true },
    milestones := writeMilestones (GenericEscrow.new 3 200).milestones 0
      false ["m0"] [5] [7] 0,
    milestone_counts :=
      mapInsert (GenericEscrow.new 3 200).milestone_counts 0 1 }

/-- A fresh contract whose agreement-id counter sits at the u128 maximum. -/
def maxIdFix : GenericEscrow :=
  { GenericEscrow.new 3 200 with next_agreement_id := 2 ^ 128 - 1 }

/-- C9: the agreement-id counter. A successful `create_agreement` returns
the current counter value as the new id and increments the counter by
exactly one; a failed attempt (typed error, and likewise a panic) leaves the
committed counter unchanged, so ids are monotonically assigned and never
reused; and when the counter is at the u128 maximum and all guards pass,
the call aborts (`fatal`, the `expect` panic) instead of returning a typed
error. -/
theorem C9_id_counter (s : GenericEscrow) (env : Env) (p : AccountId)
    (ds : List String) (amts : List Balance) (dls : List Timestamp)
    (dt : Timestamp) (orc : Option AccountId) :
    (∀ aid s' ts,
      create_agreement s env p ds amts dls dt orc = .ok aid s' ts →
      aid = s.next_agreement_id ∧
      s'.next_agreement_id = s.next_agreement_id + 1) ∧
    (∀ e, create_agreement s env p ds amts dls dt orc = .err e →
      (commitState s
        (create_agreement s env p ds amts dls dt orc)).next_agreement_id =
        s.next_agreement_id) ∧
    (create_agreement s env p ds amts dls dt orc = .fatal →
      (commitState s
        (create_agreement s env p ds amts dls dt orc)).next_agreement_id =
        s.next_agreement_id) ∧
    (ds.length = amts.length → ds.length = dls.length → ds.length ≠ 0 →
      amts.sum ≤ env.transferred_value →
      s.next_agreement_id = 2 ^ 128 - 1 →
      create_agreement s env p ds amts dls dt orc = .fatal) := by
  refine ⟨?_, ?_, ?_, ?_⟩
  · intro aid s' ts h
    obtain ⟨_, _, _, _, _, _, haid, _, hs'⟩ :=
      create_ok_inv s env p ds amts dls dt orc aid s' ts h
    subst hs'
    exact ⟨haid, rfl⟩
  · intro e h
    rw [h]
    rfl
  · intro h
    rw [h]
    rfl
  · intro h1 h2 h3 h4 h5
    have hnone : checkedAdd128 s.next_agreement_id 1 = none := by
      unfold checkedAdd128
      rw [if_neg (by rw [h5]; omega)]
    unfold create_agreement
    simp only []
    rw [if_neg (by push_neg; exact ⟨h1, h2, h3⟩), if_neg (not_lt.mpr h4),
      hnone]

/-- C9 witness: a successful creation on a fresh contract returns id 0 and
bumps the counter to 1; a rejected creation (empty schedule) leaves the
committed counter at 0; at the u128 maximum the call aborts and commits
nothing. -/
theorem C9_id_counter_witness :
    ((0 : Nat) = (GenericEscrow.new 3 200).next_agreement_id ∧
      createdFix.next_agreement_id =
        (GenericEscrow.new 3 200).next_agreement_id + 1) ∧
    (commitState (GenericEscrow.new 3 200)
      (create_agreement (GenericEscrow.new 3 200) (envFix 1 5 0) 2 [] [] []
        100 none)).next_agreement_id =
      (GenericEscrow.new 3 200).next_agreement_id ∧
    create_agreement maxIdFix (envFix 1 5 0) 2 ["m0"] [5] [7] 100 none =
      .fatal ∧
    (commitState maxIdFix
      (create_agreement maxIdFix (envFix 1 5 0) 2 ["m0"] [5] [7] 100
        none)).next_agreement_id = maxIdFix.next_agreement_id := by
  refine ⟨?_, ?_, ?_, ?_⟩
  · exact (C9_id_counter (GenericEscrow.new 3 200) (envFix 1 5 0) 2 ["m0"]
      [5] [7] 100 none).1 0 createdFix [] (by rfl)
  · exact (C9_id_counter (GenericEscrow.new 3 200) (envFix 1 5 0) 2 [] [] []
      100 none).2.1 .InvalidMilestoneStatus (by rfl)
  · exact (C9_id_counter maxIdFix (envFix 1 5 0) 2 ["m0"] [5] [7] 100
      none).2.2.2 (by rfl) (by rfl) (by decide) (by decide) (by rfl)
  · exact (C9_id_counter maxIdFix (envFix 1 5 0) 2 ["m0"] [5] [7] 100
      none).2.2.1 (by rfl)

/-- C7: `create_agreement` validation is all-or-nothing. Mismatched or empty
input arrays are rejected with the invalid-status error, a deposit below the
schedule total is rejected with `InsufficientFunds`, and in both cases the
committed state is untouched; otherwise (absent counter or index overflow)
the call returns the new id and stores the agreement record, every
milestone at status `Pending`, and the milestone count. -/
theorem C7_create_all_or_nothing (s : GenericEscrow) (env : Env)
    (p : AccountId) (ds : List String) (amts : List Balance)
    (dls : List Timestamp) (dt : Timestamp) (orc : Option AccountId) :
    ((ds.length ≠ amts.length ∨ ds.length ≠ dls.length ∨ ds.length = 0) →
      create_agreement s env p ds amts dls dt orc =
        .err .InvalidMilestoneStatus ∧
      commitState s (create_agreement s env p ds amts dls dt orc) = s) ∧
    (ds.length = amts.length → ds.length = dls.length → ds.length ≠ 0 →
      env.transferred_value < amts.sum →
      create_agreement s env p ds amts dls dt orc =
        .err .InsufficientFunds ∧
      commitState s (create_agreement s env p ds amts dls dt orc) = s) ∧
    (ds.length = amts.length → ds.length = dls.length → ds.length ≠ 0 →
      amts.sum ≤ env.transferred_value →
      s.next_agreement_id + 1 < 2 ^ 128 → ds.length < 2 ^ 32 →
      ∃ s', create_agreement s env p ds amts dls dt orc =
          .ok s.next_agreement_id s' [] ∧
        s'.agreements s.next_agreement_id =
          some { client := env.caller, provider := p,
                 total_amount := amts.sum,
                 deposited_amount := env.transferred_value,
                 created_at := env.block_timestamp,
                 dispute_timeout := dt, oracle := orc, is_active := true } ∧
        s'.milestone_counts s.next_agreement_id = some ds.length ∧
        (∀ i, i < ds.length →
          s'.milestones (s.next_agreement_id, i) =
            some { description := ds.getD i "", amount := amts.getD i 0,
                   status := .Pending, deadline := dls.getD i 0,
                   oracle_verification := orc.isSome })) := by
  refine ⟨?_, ?_, ?_⟩
  · intro hcon
    have h1 : create_agreement s env p ds amts dls dt orc =
        .err .InvalidMilestoneStatus := by
      unfold create_agreement
      simp only []
      rw [if_pos hcon]
    refine ⟨h1, ?_⟩
    rw [h1]
    rfl
  · intro h1 h2 h3 hlt
    have he : create_agreement s env p ds amts dls dt orc =
        .err .InsufficientFunds := by
      unfold create_agreement
      simp only []
      rw [if_neg (by push_neg; exact ⟨h1, h2, h3⟩), if_pos hlt]
    refine ⟨he, ?_⟩
    rw [he]
    rfl
  · intro h1 h2 h3 h4 h5 h6
    have hadd : checkedAdd128 s.next_agreement_id 1 =
        some (s.next_agreement_id + 1) := by
      unfold checkedAdd128
      rw [if_pos h5]
    refine ⟨{ s with
      next_agreement_id := s.next_agreement_id + 1,
      agreements := mapInsert s.agreements s.next_agreement_id
        { client := env.caller, provider := p, total_amount := amts.sum,
          deposited_amount := env.transferred_value,
          created_at := env.block_timestamp,
          dispute_timeout := dt, oracle := orc, is_active := true },
      milestones := writeMilestones s.milestones s.next_agreement_id
        orc.isSome ds amts dls 0,
      milestone_counts := mapInsert s.milestone_counts s.next_agreement_id
        ds.length }, ?_, ?_, ?_, ?_⟩
    · unfold create_agreement
      simp only []
      rw [if_neg (by push_neg; exact ⟨h1, h2, h3⟩), if_neg (not_lt.mpr h4),
        hadd]
      simp only []
      rw [if_neg (not_le.mpr h6)]
    · exact mapInsert_self _ _ _
    · exact mapInsert_self _ _ _
    · intro i hi
      dsimp only
      rw [writeMilestones_at s.next_agreement_id orc.isSome ds amts dls
        s.milestones 0 i h1 h2 (Nat.zero_le i) (by omega)]
      simp

/-- C7 witness: the empty schedule is rejected leaving the state unchanged;
a deposit of 4 against a 5-milestone schedule is rejected; the valid
one-milestone creation stores the agreement, the `Pending` milestone and the
count under id 0. -/
theorem C7_create_all_or_nothing_witness :
    (create_agreement (GenericEscrow.new 3 200) (envFix 1 5 0) 2 [] [] []
        100 none = .err .InvalidMilestoneStatus ∧
      commitState (GenericEscrow.new 3 200)
        (create_agreement (GenericEscrow.new 3 200) (envFix 1 5 0) 2 [] [] []
          100 none) = GenericEscrow.new 3 200) ∧
    (create_agreement (GenericEscrow.new 3 200) (envFix 1 4 0) 2 ["m0"] [5]
        [7] 100 none = .err .InsufficientFunds ∧
      commitState (GenericEscrow.new 3 200)
        (create_agreement (GenericEscrow.new 3 200) (envFix 1 4 0) 2 ["m0"]
          [5] [7] 100 none) = GenericEscrow.new 3 200) ∧
    (∃ s', create_agreement (GenericEscrow.new 3 200) (envFix 1 5 0) 2
        ["m0"] [5] [7] 100 none =
        .ok (GenericEscrow.new 3 200).next_agreement_id s' [] ∧
      s'.agreements (GenericEscrow.new 3 200).next_agreement_id =
        some { client := (envFix 1 5 0).caller, provider := 2,
               total_amount := List.sum [5],
               deposited_amount := (envFix 1 5 0).transferred_value,
               created_at := (envFix 1 5 0).block_timestamp,
               dispute_timeout := 100, oracle := none, is_active := true } ∧
      s'.milestone_counts (GenericEscrow.new 3 200).next_agreement_id =
        some (["m0"] : List String).length ∧
      (∀ i, i < (["m0"] : List String).length →
        s'.milestones ((GenericEscrow.new 3 200).next_agreement_id, i) =
          some { description := (["m0"] : List String).getD i "",
                 amount := ([5] : List Balance).getD i 0,
                 status := .Pending,
                 deadline := ([7] : List Timestamp).getD i 0,
                 oracle_verification := (none : Option AccountId).isSome })) := by
  refine ⟨?_, ?_, ?_⟩
  · exact (C7_create_all_or_nothing (GenericEscrow.new 3 200) (envFix 1 5 0)
      2 [] [] [] 100 none).1 (Or.inr (Or.inr rfl))
  · exact (C7_create_all_or_nothing (GenericEscrow.new 3 200) (envFix 1 4 0)
      2 ["m0"] [5] [7] 100 none).2.1 (by rfl) (by rfl) (by decide)
      (by decide)
  · exact (C7_create_all_or_nothing (GenericEscrow.new 3 200) (envFix 1 5 0)
      2 ["m0"] [5] [7] 100 none).2.2 (by rfl) (by rfl) (by decide)
      (by decide) (by decide) (by decide)

/-- C8: the transition table's guards. With an authorized caller, a call on a
milestone whose status is not the one the action expects fails with the
invalid-status error for that action (`MilestoneAlreadyCompleted` for
`complete_milestone`, `InvalidMilestoneStatus` for the other three, both in
the spec's invalid-state class); an unauthorized caller fails with
`NotAuthorized`; and once a milestone is `Resolved` every mutating call on
it fails and commits no write. -/
theorem C8_transition_guards (s : GenericEscrow) (env : Env)
    (aid idx : Nat) (ag : Agreement) (m : Milestone)
    (hag : s.agreements aid = some ag)
    (hm : s.milestones (aid, idx) = some m) :
    (Error.isInvalidStatusError .MilestoneAlreadyCompleted = true ∧
     Error.isInvalidStatusError .InvalidMilestoneStatus = true) ∧
    (env.caller = ag.provider → ag.is_active = true → m.status ≠ .Pending →
      complete_milestone s env aid idx = .err .MilestoneAlreadyCompleted) ∧
    ((env.caller = ag.client ∨ ag.oracle = some env.caller) →
      ag.is_active = true → m.status ≠ .Completed →
      approve_and_release s env aid idx = .err .InvalidMilestoneStatus) ∧
    ((env.caller = ag.client ∨ env.caller = ag.provider) →
      m.status ≠ .Completed →
      raise_dispute s env aid idx = .err .InvalidMilestoneStatus) ∧
    (∀ rel, ¬(ag.oracle ≠ some env.caller ∧ env.caller ≠ ag.client) →
      ¬(ag.oracle ≠ some env.caller ∧
        env.block_timestamp < ag.dispute_timeout) →
      m.status ≠ .Disputed →
      resolve_dispute s env aid idx rel = .err .InvalidMilestoneStatus) ∧
    (env.caller ≠ ag.provider →
      complete_milestone s env aid idx = .err .NotAuthorized) ∧
    (env.caller ≠ ag.client → ag.oracle ≠ some env.caller →
      approve_and_release s env aid idx = .err .NotAuthorized) ∧
    (env.caller ≠ ag.client → env.caller ≠ ag.provider →
      raise_dispute s env aid idx = .err .NotAuthorized) ∧
    (∀ rel, ag.oracle ≠ some env.caller → env.caller ≠ ag.client →
      resolve_dispute s env aid idx rel = .err .NotAuthorized) ∧
    (m.status = .Resolved →
      (∀ u s' ts, complete_milestone s env aid idx ≠ .ok u s' ts) ∧
      (∀ u s' ts, approve_and_release s env aid idx ≠ .ok u s' ts) ∧
      (∀ u s' ts, raise_dispute s env aid idx ≠ .ok u s' ts) ∧
      (∀ rel u s' ts, resolve_dispute s env aid idx rel ≠ .ok u s' ts) ∧
      commitState s (complete_milestone s env aid idx) = s ∧
      commitState s (approve_and_release s env aid idx) = s ∧
      commitState s (raise_dispute s env aid idx) = s ∧
      (∀ rel, commitState s (resolve_dispute s env aid idx rel) = s)) := by
  refine ⟨⟨rfl, rfl⟩, ?_, ?_, ?_, ?_, ?_, ?_, ?_, ?_, ?_⟩
  · intro hcall hact hstat
    unfold complete_milestone
    simp only [hag]
    rw [if_neg (fun hcon => hcon hcall), if_neg (fun hcon => hcon hact)]
    simp only [hm]
    rw [if_pos hstat]
  · intro hauth hact hstat
    unfold approve_and_release
    simp only [hag]
    rw [if_neg (not_not.mpr hauth), if_neg (fun hcon => hcon hact)]
    simp only [hm]
    rw [if_pos hstat]
  · intro hcall hstat
    unfold raise_dispute
    simp only [hag]
    rw [if_neg (fun hcon => hcall.elim hcon.1 hcon.2)]
    simp only [hm]
    rw [if_pos hstat]
  · intro rel hauth htime hstat
    unfold resolve_dispute
    simp only [hag]
    rw [if_neg hauth, if_neg htime]
    simp only [hm]
    rw [if_pos hstat]
  · intro hne
    unfold complete_milestone
    simp only [hag]
    rw [if_pos hne]
  · intro hne1 hne2
    unfold approve_and_release
    simp only [hag]
    rw [if_pos (fun hor => hor.elim (fun hc => hne1 hc) (fun ho => hne2 ho))]
  · intro hne1 hne2
    unfold raise_dispute
    simp only [hag]
    rw [if_pos ⟨hne1, hne2⟩]
  · intro rel hne1 hne2
    unfold resolve_dispute
    simp only [hag]
    rw [if_pos ⟨hne1, hne2⟩]
  · intro hres
    have hc : ∀ u s' ts, complete_milestone s env aid idx ≠ .ok u s' ts := by
      intro u s' ts h
      obtain ⟨ag', m', _, _, _, hm', hstat', _, _⟩ :=
        complete_ok_inv s env aid idx u s' ts h
      rw [hm] at hm'
      have hmm := Option.some.inj hm'
      rw [← hmm, hres] at hstat'
      exact MilestoneStatus.noConfusion hstat'
    have ha : ∀ u s' ts, approve_and_release s env aid idx ≠ .ok u s' ts := by
      intro u s' ts h
      obtain ⟨ag', m', fee, _, hm', hstat', _, _, _, _, _⟩ :=
        approve_ok_inv s env aid idx u s' ts h
      rw [hm] at hm'
      have hmm := Option.some.inj hm'
      rw [← hmm, hres] at hstat'
      exact MilestoneStatus.noConfusion hstat'
    have hr : ∀ u s' ts, raise_dispute s env aid idx ≠ .ok u s' ts := by
      intro u s' ts h
      obtain ⟨ag', m', _, _, hm', hstat', _, _⟩ :=
        raise_ok_inv s env aid idx u s' ts h
      rw [hm] at hm'
      have hmm := Option.some.inj hm'
      rw [← hmm, hres] at hstat'
      exact MilestoneStatus.noConfusion hstat'
    have hd : ∀ rel u s' ts, resolve_dispute s env aid idx rel ≠ .ok u s' ts := by
      intro rel u s' ts h
      obtain ⟨ag', m', fee, _, hm', hstat', _, _, _, _, _⟩ :=
        resolve_ok_inv s env aid idx rel u s' ts h
      rw [hm] at hm'
      have hmm := Option.some.inj hm'
      rw [← hmm, hres] at hstat'
      exact MilestoneStatus.noConfusion hstat'
    exact ⟨hc, ha, hr, hd,
      commitState_of_not_ok s _ (hc),
      commitState_of_not_ok s _ (ha),
      commitState_of_not_ok s _ (hr),
      fun rel => commitState_of_not_ok s _ (hd rel)⟩

/-- C8 witness: on the fixture state, each action called from a wrong status
by an authorized caller returns its invalid-status error; a stranger
(account 9) gets `NotAuthorized` from each action; and on a `Resolved`
milestone every mutating call fails and commits nothing. -/
theorem C8_transition_guards_witness :
    complete_milestone (stFix .Completed) (envFix 2 0 0) 0 0 =
      .err .MilestoneAlreadyCompleted ∧
    approve_and_release (stFix .Pending) (envFix 1 0 0) 0 0 =
      .err .InvalidMilestoneStatus ∧
    raise_dispute (stFix .Pending) (envFix 1 0 0) 0 0 =
      .err .InvalidMilestoneStatus ∧
    resolve_dispute (stFix .Pending) (envFix 4 0 0) 0 0 true =
      .err .InvalidMilestoneStatus ∧
    complete_milestone (stFix .Pending) (envFix 9 0 0) 0 0 =
      .err .NotAuthorized ∧
    approve_and_release (stFix .Pending) (envFix 9 0 0) 0 0 =
      .err .NotAuthorized ∧
    raise_dispute (stFix .Pending) (envFix 9 0 0) 0 0 =
      .err .NotAuthorized ∧
    resolve_dispute (stFix .Pending) (envFix 9 0 0) 0 0 false =
      .err .NotAuthorized ∧
    ((∀ u s' ts, complete_milestone (stFix .Resolved) (envFix 1 0 0) 0 0 ≠
        .ok u s' ts) ∧
      (∀ u s' ts, approve_and_release (stFix .Resolved) (envFix 1 0 0) 0 0 ≠
        .ok u s' ts) ∧
      (∀ u s' ts, raise_dispute (stFix .Resolved) (envFix 1 0 0) 0 0 ≠
        .ok u s' ts) ∧
      (∀ rel u s' ts,
        resolve_dispute (stFix .Resolved) (envFix 1 0 0) 0 0 rel ≠
          .ok u s' ts) ∧
      commitState (stFix .Resolved)
        (complete_milestone (stFix .Resolved) (envFix 1 0 0) 0 0) =
        stFix .Resolved ∧
      commitState (stFix .Resolved)
        (approve_and_release (stFix .Resolved) (envFix 1 0 0) 0 0) =
        stFix .Resolved ∧
      commitState (stFix .Resolved)
        (raise_dispute (stFix .Resolved) (envFix 1 0 0) 0 0) =
        stFix .Resolved ∧
      (∀ rel, commitState (stFix .Resolved)
        (resolve_dispute (stFix .Resolved) (envFix 1 0 0) 0 0 rel) =
        stFix .Resolved)) := by
  refine ⟨?_, ?_, ?_, ?_, ?_, ?_, ?_, ?_, ?_⟩
  · exact (C8_transition_guards (stFix .Completed) (envFix 2 0 0) 0 0 agFix
      (msFix .Completed) (by rfl) (by rfl)).2.1 (by rfl) (by rfl) (by decide)
  · exact (C8_transition_guards (stFix .Pending) (envFix 1 0 0) 0 0 agFix
      (msFix .Pending) (by rfl) (by rfl)).2.2.1 (Or.inl rfl) (by rfl)
      (by decide)
  · exact (C8_transition_guards (stFix .Pending) (envFix 1 0 0) 0 0 agFix
      (msFix .Pending) (by rfl) (by rfl)).2.2.2.1 (Or.inl rfl) (by decide)
  · exact (C8_transition_guards (stFix .Pending) (envFix 4 0 0) 0 0 agFix
      (msFix .Pending) (by rfl) (by rfl)).2.2.2.2.1 true (by decide)
      (by decide) (by decide)
  · exact (C8_transition_guards (stFix .Pending) (envFix 9 0 0) 0 0 agFix
      (msFix .Pending) (by rfl) (by rfl)).2.2.2.2.2.1 (by decide)
  · exact (C8_transition_guards (stFix .Pending) (envFix 9 0 0) 0 0 agFix
      (msFix .Pending) (by rfl) (by rfl)).2.2.2.2.2.2.1 (by decide)
      (by decide)
  · exact (C8_transition_guards (stFix .Pending) (envFix 9 0 0) 0 0 agFix
      (msFix .Pending) (by rfl) (by rfl)).2.2.2.2.2.2.2.1 (by decide)
      (by decide)
  · exact (C8_transition_guards (stFix .Pending) (envFix 9 0 0) 0 0 agFix
      (msFix .Pending) (by rfl) (by rfl)).2.2.2.2.2.2.2.2.1 false
      (by decide) (by decide)
  · exact (C8_transition_guards (stFix .Resolved) (envFix 1 0 0) 0 0 agFix
      (msFix .Resolved) (by rfl) (by rfl)).2.2.2.2.2.2.2.2.2 (by rfl)

/-- C10: every successful mutating call other than `create_agreement` writes
exactly the one milestone record keyed `(agreement_id, milestone_index)`
(setting the action's target status and keeping all its other fields) and
leaves the agreement table, the milestone counts, every other milestone, the
id counter and the platform fee configuration unchanged. -/
theorem C10_frame (s : GenericEscrow) (env : Env) (aid idx : Nat) :
    (∀ u s' ts, complete_milestone s env aid idx = .ok u s' ts →
      s'.next_agreement_id = s.next_agreement_id ∧
      s'.platform_fee_bps = s.platform_fee_bps ∧
      s'.platform_account = s.platform_account ∧
      (∀ a, s'.agreements a = s.agreements a) ∧
      (∀ a, s'.milestone_counts a = s.milestone_counts a) ∧
      (∀ k, k ≠ (aid, idx) → s'.milestones k = s.milestones k) ∧
      (∃ m, s.milestones (aid, idx) = some m ∧
        s'.milestones (aid, idx) = some { m with status := .Completed })) ∧
    (∀ u s' ts, approve_and_release s env aid idx = .ok u s' ts →
      s'.next_agreement_id = s.next_agreement_id ∧
      s'.platform_fee_bps = s.platform_fee_bps ∧
      s'.platform_account = s.platform_account ∧
      (∀ a, s'.agreements a = s.agreements a) ∧
      (∀ a, s'.milestone_counts a = s.milestone_counts a) ∧
      (∀ k, k ≠ (aid, idx) → s'.milestones k = s.milestones k) ∧
      (∃ m, s.milestones (aid, idx) = some m ∧
        s'.milestones (aid, idx) = some { m with status := .Resolved })) ∧
    (∀ u s' ts, raise_dispute s env aid idx = .ok u s' ts →
      s'.next_agreement_id = s.next_agreement_id ∧
      s'.platform_fee_bps = s.platform_fee_bps ∧
      s'.platform_account = s.platform_account ∧
      (∀ a, s'.agreements a = s.agreements a) ∧
      (∀ a, s'.milestone_counts a = s.milestone_counts a) ∧
      (∀ k, k ≠ (aid, idx) → s'.milestones k = s.milestones k) ∧
      (∃ m, s.milestones (aid, idx) = some m ∧
        s'.milestones (aid, idx) = some { m with status := .Disputed })) ∧
    (∀ rel u s' ts, resolve_dispute s env aid idx rel = .ok u s' ts →
      s'.next_agreement_id = s.next_agreement_id ∧
      s'.platform_fee_bps = s.platform_fee_bps ∧
      s'.platform_account = s.platform_account ∧
      (∀ a, s'.agreements a = s.agreements a) ∧
      (∀ a, s'.milestone_counts a = s.milestone_counts a) ∧
      (∀ k, k ≠ (aid, idx) → s'.milestones k = s.milestones k) ∧
      (∃ m, s.milestones (aid, idx) = some m ∧
        s'.milestones (aid, idx) = some { m with status := .Resolved })) := by
  refine ⟨?_, ?_, ?_, ?_⟩
  · intro u s' ts h
    obtain ⟨ag, m, hag, hcall, hact, hm, hstat, hs', hts⟩ :=
      complete_ok_inv s env aid idx u s' ts h
    subst hs'
    exact ⟨rfl, rfl, rfl, fun a => rfl, fun a => rfl,
      fun k hk => mapInsert_ne s.milestones (aid, idx) k _ hk,
      ⟨m, hm, mapInsert_self _ _ _⟩⟩
  · intro u s' ts h
    obtain ⟨ag, m, fee, hag, hm, hstat, hle, hauth, hact, hs', hts⟩ :=
      approve_ok_inv s env aid idx u s' ts h
    subst hs'
    exact ⟨rfl, rfl, rfl, fun a => rfl, fun a => rfl,
      fun k hk => mapInsert_ne s.milestones (aid, idx) k _ hk,
      ⟨m, hm, mapInsert_self _ _ _⟩⟩
  · intro u s' ts h
    obtain ⟨ag, m, hag, hcall, hm, hstat, hs', hts⟩ :=
      raise_ok_inv s env aid idx u s' ts h
    subst hs'
    exact ⟨rfl, rfl, rfl, fun a => rfl, fun a => rfl,
      fun k hk => mapInsert_ne s.milestones (aid, idx) k _ hk,
      ⟨m, hm, mapInsert_self _ _ _⟩⟩
  · intro rel u s' ts h
    obtain ⟨ag, m, fee, hag, hm, hstat, hle, hff, hft, hs', hts⟩ :=
      resolve_ok_inv s env aid idx rel u s' ts h
    subst hs'
    exact ⟨rfl, rfl, rfl, fun a => rfl, fun a => rfl,
      fun k hk => mapInsert_ne s.milestones (aid, idx) k _ hk,
      ⟨m, hm, mapInsert_self _ _ _⟩⟩

/-- The fixture state after rewriting its single milestone from status `st0`
to status `st1`. -/
def stAfter (st0 st1 : MilestoneStatus) : GenericEscrow :=
  { stFix st0 with
    milestones := mapInsert (stFix st0).milestones (0, 0)
      { msFix st0 with status := st1 } }

/-- C10 witness: concrete successful runs of the four milestone operations
on the fixture; each rewrites exactly the milestone at key (0, 0). -/
theorem C10_frame_witness :
    (∃ m, (stFix .Pending).milestones (0, 0) = some m ∧
      (stAfter .Pending .Completed).milestones (0, 0) =
        some { m with status := .Completed }) ∧
    (∃ m, (stFix .Completed).milestones (0, 0) = some m ∧
      (stAfter .Completed .Resolved).milestones (0, 0) =
        some { m with status := .Resolved }) ∧
    (∃ m, (stFix .Completed).milestones (0, 0) = some m ∧
      (stAfter .Completed .Disputed).milestones (0, 0) =
        some { m with status := .Disputed }) ∧
    (∃ m, (stFix .Disputed).milestones (0, 0) = some m ∧
      (stAfter .Disputed .Resolved).milestones (0, 0) =
        some { m with status := .Resolved }) := by
  refine ⟨?_, ?_, ?_, ?_⟩
  · exact ((C10_frame (stFix .Pending) (envFix 2 0 0) 0 0).1 ()
      (stAfter .Pending .Completed) [] (by rfl)).2.2.2.2.2.2
  · exact ((C10_frame (stFix .Completed) (envFix 1 0 0) 0 0).2.1 ()
      (stAfter .Completed .Resolved)
      [{ dest := 3, amount := 10 }, { dest := 2, amount := 490 }]
      (by rfl)).2.2.2.2.2.2
  · exact ((C10_frame (stFix .Completed) (envFix 1 0 0) 0 0).2.2.1 ()
      (stAfter .Completed .Disputed) [] (by rfl)).2.2.2.2.2.2
  · exact ((C10_frame (stFix .Disputed) (envFix 4 0 0) 0 0).2.2.2 true ()
      (stAfter .Disputed .Resolved)
      [{ dest := 3, amount := 10 }, { dest := 2, amount := 490 }]
      (by rfl)).2.2.2.2.2.2

/-- C3: if any external transfer issued during `approve_and_release` or
`resolve_dispute` fails, the whole call returns `TransferFailed` and the
committed state is exactly the pre-call state: the milestone status change
performed earlier in the call is not retained (host revert semantics,
`commitState`). -/
theorem C3_transfer_failure_reverts (s : GenericEscrow) (env : Env)
    (aid idx : Nat) (ag : Agreement) (m : Milestone)
    (hag : s.agreements aid = some ag)
    (hm : s.milestones (aid, idx) = some m)
    (hmul : m.amount * s.platform_fee_bps < 2 ^ 128)
    (hbps : s.platform_fee_bps ≤ 10000) :
    ((env.caller = ag.client ∨ ag.oracle = some env.caller) →
      ag.is_active = true → m.status = .Completed →
      ((0 < m.amount * s.platform_fee_bps / 10000 ∧
        env.transferOk s.platform_account
          (m.amount * s.platform_fee_bps / 10000) = false) ∨
       env.transferOk ag.provider
         (m.amount - m.amount * s.platform_fee_bps / 10000) = false) →
      approve_and_release s env aid idx = .err .TransferFailed ∧
      commitState s (approve_and_release s env aid idx) = s) ∧
    (∀ rel, ¬(ag.oracle ≠ some env.caller ∧ env.caller ≠ ag.client) →
      ¬(ag.oracle ≠ some env.caller ∧
        env.block_timestamp < ag.dispute_timeout) →
      m.status = .Disputed →
      ((0 < (if rel then m.amount * s.platform_fee_bps / 10000 else 0) ∧
        env.transferOk s.platform_account
          (if rel then m.amount * s.platform_fee_bps / 10000 else 0) =
          false) ∨
       env.transferOk (if rel then ag.provider else ag.client)
         (m.amount -
           (if rel then m.amount * s.platform_fee_bps / 10000 else 0)) =
         false) →
      resolve_dispute s env aid idx rel = .err .TransferFailed ∧
      commitState s (resolve_dispute s env aid idx rel) = s) := by
  constructor
  · intro hauth hact hstat hfail
    have hsub : checkedSub m.amount (m.amount * s.platform_fee_bps / 10000) =
        some (m.amount - m.amount * s.platform_fee_bps / 10000) := by
      unfold checkedSub
      rw [if_pos (fee_le_amount m.amount s.platform_fee_bps hbps)]
    have h1 : approve_and_release s env aid idx = .err .TransferFailed := by
      unfold approve_and_release
      simp only [hag]
      rw [if_neg (not_not.mpr hauth), if_neg (fun hcon => hcon hact)]
      simp only [hm]
      rw [if_neg (fun hne => hne hstat),
        feePipeline_ok m.amount s.platform_fee_bps hmul]
      simp only []
      rw [hsub]
      simp only []
      rcases hfail with ⟨hpos, hfailfee⟩ | hfailnet
      · rw [if_pos hpos, hfailfee, if_neg Bool.false_ne_true]
      · by_cases hpos : m.amount * s.platform_fee_bps / 10000 > 0
        · rw [if_pos hpos]
          cases hfeeok : env.transferOk s.platform_account
              (m.amount * s.platform_fee_bps / 10000) with
          | false => rw [if_neg Bool.false_ne_true]
          | true => rw [if_pos rfl, hfailnet, if_neg Bool.false_ne_true]
        · rw [if_neg hpos, hfailnet, if_neg Bool.false_ne_true]
    exact ⟨h1, by rw [h1]; rfl⟩
  · intro rel hauth htime hstat hfail
    have hpipe : (if rel = true then
        (checkedMul128 m.amount s.platform_fee_bps).bind
          (fun v => checkedDiv v 10000)
        else some 0) =
        some (if rel = true then m.amount * s.platform_fee_bps / 10000
              else 0) := by
      cases rel
      · simp
      · simp [feePipeline_ok m.amount s.platform_fee_bps hmul]
    have hfee_le : (if rel = true then m.amount * s.platform_fee_bps / 10000
        else 0) ≤ m.amount := by
      cases rel
      · simp
      · simp [fee_le_amount m.amount s.platform_fee_bps hbps]
    have hsub : checkedSub m.amount
        (if rel = true then m.amount * s.platform_fee_bps / 10000 else 0) =
        some (m.amount -
          (if rel = true then m.amount * s.platform_fee_bps / 10000
           else 0)) := by
      unfold checkedSub
      rw [if_pos hfee_le]
    have h1 : resolve_dispute s env aid idx rel = .err .TransferFailed := by
      unfold resolve_dispute
      simp only [hag]
      rw [if_neg hauth, if_neg htime]
      simp only [hm]
      rw [if_neg (fun hne => hne hstat), hpipe]
      simp only []
      rw [hsub]
      simp only []
      rcases hfail with ⟨hpos, hfailfee⟩ | hfailnet
      · rw [if_pos hpos, hfailfee, if_neg Bool.false_ne_true]
      · by_cases hpos : (if rel = true then
            m.amount * s.platform_fee_bps / 10000 else 0) > 0
        · rw [if_pos hpos]
          cases hfeeok : env.transferOk s.platform_account
              (if rel = true then m.amount * s.platform_fee_bps / 10000
               else 0) with
          | false => rw [if_neg Bool.false_ne_true]
          | true => rw [if_pos rfl, hfailnet, if_neg Bool.false_ne_true]
        · rw [if_neg hpos, hfailnet, if_neg Bool.false_ne_true]
    exact ⟨h1, by rw [h1]; rfl⟩

/-- C3 witness: with a transfer primitive that always fails, approving the
completed fixture milestone and resolving the disputed one both return
`TransferFailed` and commit nothing. -/
theorem C3_transfer_failure_reverts_witness :
    (approve_and_release (stFix .Completed) (envFixNoTransfer 1 0 0) 0 0 =
      .err .TransferFailed ∧
     commitState (stFix .Completed)
       (approve_and_release (stFix .Completed) (envFixNoTransfer 1 0 0) 0 0) =
       stFix .Completed) ∧
    (resolve_dispute (stFix .Disputed) (envFixNoTransfer 4 0 0) 0 0 false =
      .err .TransferFailed ∧
     commitState (stFix .Disputed)
       (resolve_dispute (stFix .Disputed) (envFixNoTransfer 4 0 0) 0 0
         false) = stFix .Disputed) := by
  constructor
  · exact (C3_transfer_failure_reverts (stFix .Completed)
      (envFixNoTransfer 1 0 0) 0 0 agFix (msFix .Completed) (by rfl) (by rfl)
      (by decide) (by decide)).1 (Or.inl rfl) (by rfl) (by rfl)
      (Or.inl ⟨by decide, by rfl⟩)
  · exact (C3_transfer_failure_reverts (stFix .Disputed)
      (envFixNoTransfer 4 0 0) 0 0 agFix (msFix .Disputed) (by rfl) (by rfl)
      (by decide) (by decide)).2 false (by decide) (by decide) (by rfl)
      (Or.inr (by rfl))

/-- C1: custody conservation. Every successful `approve_and_release` or
`resolve_dispute` issues transfers whose amounts (platform fee plus the
recipient's share) total exactly the milestone's amount; and along any trace
of calls from a fresh contract, the cumulative value released to the payee
plus refunded to the payer of an agreement never exceeds that agreement's
`total_amount`. -/
theorem C1_custody_conservation :
    (∀ s env aid idx u s' ts,
      approve_and_release s env aid idx = .ok u s' ts →
      ∃ m, s.milestones (aid, idx) = some m ∧
        (ts.map Transfer.amount).sum = m.amount) ∧
    (∀ s env aid idx rel u s' ts,
      resolve_dispute s env aid idx rel = .ok u s' ts →
      ∃ m, s.milestones (aid, idx) = some m ∧
        (ts.map Transfer.amount).sum = m.amount) ∧
    (∀ pa bps cs a ag,
      (runCalls (GenericEscrow.new pa bps, fun _ => 0) cs).1.agreements a =
        some ag →
      (runCalls (GenericEscrow.new pa bps, fun _ => 0) cs).2 a ≤
        ag.total_amount) := by
  refine ⟨?_, ?_, ?_⟩
  · intro s env aid idx u s' ts h
    obtain ⟨ag, m, fee, hag, hm, hstat, hle, hauth, hact, hs', hts_or⟩ :=
      approve_ok_inv s env aid idx u s' ts h
    refine ⟨m, hm, ?_⟩
    rcases hts_or with ⟨hpos, hts⟩ | ⟨hfee0, hts⟩
    · subst hts
      simp only [List.map_cons, List.map_nil, List.sum_cons, List.sum_nil,
        Nat.add_zero]
      exact Nat.add_sub_cancel' hle
    · subst hts
      subst hfee0
      simp
  · intro s env aid idx rel u s' ts h
    obtain ⟨ag, m, fee, hag, hm, hstat, hle, hff, hft, hs', hts_or⟩ :=
      resolve_ok_inv s env aid idx rel u s' ts h
    refine ⟨m, hm, ?_⟩
    rcases hts_or with ⟨hpos, hts⟩ | ⟨hfee0, hts⟩
    · subst hts
      simp only [List.map_cons, List.map_nil, List.sum_cons, List.sum_nil,
        Nat.add_zero]
      exact Nat.add_sub_cancel' hle
    · subst hts
      subst hfee0
      simp
  · intro pa bps cs a ag hag
    obtain ⟨n, _, _, _, _, hpay⟩ :=
      (runCalls_inv cs (GenericEscrow.new pa bps, fun _ => 0)
        (escrowInv_init pa bps)).agree a ag hag
    exact le_trans (Nat.le_add_right _ _) hpay

/-- C1 witness: the concrete approval of the fixture milestone pays
10 + 490 = 500, its resolution pays the same, and after the one-agreement
creation trace the cumulative payout 0 is at most the total 5. -/
theorem C1_custody_conservation_witness :
    (∃ m, (stFix .Completed).milestones (0, 0) = some m ∧
      (([{ dest := 3, amount := 10 }, { dest := 2, amount := 490 }] :
        List Transfer).map Transfer.amount).sum = m.amount) ∧
    (∃ m, (stFix .Disputed).milestones (0, 0) = some m ∧
      (([{ dest := 1, amount := 500 }] : List Transfer).map
        Transfer.amount).sum = m.amount) ∧
    (runCalls (GenericEscrow.new 3 200, fun _ => 0)
        [Call.create (envFix 1 5 0) 2 ["m0"] [5] [7] 100 none]).2 0 ≤
      ({ client := 1, provider := 2, total_amount := 5,
         deposited_amount := 5, created_at := 0, dispute_timeout := 100,
         oracle := none, is_active := true } : Agreement).total_amount := by
  refine ⟨?_, ?_, ?_⟩
  · exact C1_custody_conservation.1 (stFix .Completed) (envFix 1 0 0) 0 0 ()
      (stAfter .Completed .Resolved)
      [{ dest := 3, amount := 10 }, { dest := 2, amount := 490 }] (by rfl)
  · exact C1_custody_conservation.2.1 (stFix .Disputed) (envFix 4 0 0) 0 0
      false () (stAfter .Disputed .Resolved)
      [{ dest := 1, amount := 500 }] (by rfl)
  · exact C1_custody_conservation.2.2 3 200
      [Call.create (envFix 1 5 0) 2 ["m0"] [5] [7] 100 none] 0
      { client := 1, provider := 2, total_amount := 5, deposited_amount := 5,
        created_at := 0, dispute_timeout := 100, oracle := none,
        is_active := true } (by rfl)

/-- C2: schedule consistency. In every state reachable from a fresh contract
by any sequence of calls, every stored agreement's `total_amount` equals the
sum of the amounts of its milestones 0, ..., count - 1, and its
`deposited_amount` is at least its `total_amount`. -/
theorem C2_schedule_consistency (pa bps : Nat) (cs : List Call) (a : Nat)
    (ag : Agreement)
    (hag : (runCalls (GenericEscrow.new pa bps, fun _ => 0) cs).1.agreements
      a = some ag) :
    ∃ n, (runCalls (GenericEscrow.new pa bps, fun _ => 0)
        cs).1.milestone_counts a = some n ∧
      ag.total_amount =
        sumAmounts (runCalls (GenericEscrow.new pa bps, fun _ => 0)
          cs).1.milestones a n ∧
      ag.total_amount ≤ ag.deposited_amount := by
  obtain ⟨n, h1, h2, h3, _, _⟩ :=
    (runCalls_inv cs (GenericEscrow.new pa bps, fun _ => 0)
      (escrowInv_init pa bps)).agree a ag hag
  exact ⟨n, h1, h2, h3⟩

/-- C2 witness: after the one-agreement creation trace, the stored count is
1, the stored total 5 equals the milestone-amount sum, and the deposit 5
covers it. -/
theorem C2_schedule_consistency_witness :
    ∃ n, (runCalls (GenericEscrow.new 3 200, fun _ => 0)
        [Call.create (envFix 1 5 0) 2 ["m0"] [5] [7] 100
          none]).1.milestone_counts 0 = some n ∧
      ({ client := 1, provider := 2, total_amount := 5, deposited_amount := 5,
         created_at := 0, dispute_timeout := 100, oracle := none,
         is_active := true } : Agreement).total_amount =
        sumAmounts (runCalls (GenericEscrow.new 3 200, fun _ => 0)
          [Call.create (envFix 1 5 0) 2 ["m0"] [5] [7] 100
            none]).1.milestones 0 n ∧
      ({ client := 1, provider := 2, total_amount := 5, deposited_amount := 5,
         created_at := 0, dispute_timeout := 100, oracle := none,
         is_active := true } : Agreement).total_amount ≤
      ({ client := 1, provider := 2, total_amount := 5, deposited_amount := 5,
         created_at := 0, dispute_timeout := 100, oracle := none,
         is_active := true } : Agreement).deposited_amount :=
  C2_schedule_consistency 3 200
    [Call.create (envFix 1 5 0) 2 ["m0"] [5] [7] 100 none] 0
    { client := 1, provider := 2, total_amount := 5, deposited_amount := 5,
      created_at := 0, dispute_timeout := 100, oracle := none,
      is_active := true } (by rfl)
